import Mathlib

/-!
# PluginRunner: rendering a wav file through an audio plugin, offline

A shallow embedding of `Source/Main.cpp`.

* A C++ `int` is an `Int` reduced to 32 bits by `wrapInt32`; the 64-bit
  `lengthInSamples` of the reader is an `Int`. Signed overflow is undefined in C++: the
  wrap is the choice of this embedding, and the theorems about the frame count `2^31 - 1`
  say which of their parts hold before the overflowing increment and which depend on it.
* `float` samples, the `double` sample rate and the `AudioChannelSet` are only ever
  copied by the program, so they are type parameters `α`, `ρ` and `χ`.
* A `File` is its full path, a `String`; what the file system, the plugin scanner and
  the audio format manager answer is collected in a `World`.
* The plugin is a record of state transformers over its internal state `σ`.
* Every externally visible action is appended to a chronological `Event` log.
* The `for` loop of `process` takes fuel: one unit per evaluation of its condition.
-/

namespace PluginRunner

/-! ## Machine integers -/

/-- Value of a C++ `int` holding the mathematical integer `x`: two's complement
reduction to 32 bits (2147483648 = 2^31, 4294967296 = 2^32). -/
def wrapInt32 (x : Int) : Int := (x + 2147483648) % 4294967296 - 2147483648

/-- Largest value of a C++ `int`, 2^31 - 1. -/
def INT_MAX : Int := 2147483647

/-- The constant `blockSize` of `process` (Main.cpp:172). -/
def blockSize : Int := 512

/-- JUCE `jmin (a, b)`: `b < a ? b : a`. -/
def jmin (a b : Int) : Int := if b < a then b else a

/-! ## Data model -/

/-- The `FileInfo` struct of Main.cpp:26. -/
structure FileInfo (ρ χ : Type) where
  sampleRate : ρ
  channelSet : χ
  bitsPerSample : Int

/-- Initial value of the global `fileInfo`: the member initialisers of the struct. -/
def FileInfo.initial {ρ χ : Type} [OfScientific ρ] [EmptyCollection χ] : FileInfo ρ χ :=
  { sampleRate := 44100.0, channelSet := ∅, bitsPerSample := 16 }

/-- An `AudioBuffer<float>`: channel-major samples and the frame count. -/
structure AudioBuffer (α : Type) where
  numSamples : Nat
  channels : List (List α)
deriving DecidableEq

/-- A default-constructed `AudioBuffer<float>`: no channels, no samples. -/
def AudioBuffer.empty {α : Type} : AudioBuffer α := { numSamples := 0, channels := [] }

/-- The fields and methods of an `AudioFormatReader` that `process` uses; `sample c i`
is what `read` stores for channel `c` at frame `i`. -/
structure AudioFormatReader (α ρ χ : Type) where
  sampleRate : ρ
  channelLayout : χ
  bitsPerSample : Int
  numChannels : Nat
  lengthInSamples : Int
  sample : Nat → Nat → α

/-- An `AudioPluginInstance`: its internal state and the four methods `process` calls.
`processBlock` receives the sub-buffer (the `MidiBuffer` is always empty) and gives
back what it left in it. -/
structure AudioPluginInstance (σ α ρ : Type) where
  state : σ
  setNonRealtime : Bool → σ → σ
  prepareToPlay : ρ → Int → σ → σ
  processBlock : AudioBuffer α → σ → σ × AudioBuffer α
  releaseResources : σ → σ

/-- A `PluginDescription` found by the plugin scan. -/
structure PluginDescription where
  fileOrIdentifier : String
deriving DecidableEq

/-- Externally visible actions, in the order the program performs them. -/
inductive Event (α ρ χ : Type) where
  | cout (msg : String)
  | createFile (file : String)
  | enterProcess (inputFile : String)
  | setNonRealtime (flag : Bool)
  | prepareToPlay (sampleRate : ρ) (samplesPerBlock : Int)
  | processBlock (numChannels : Nat) (startSample : Int) (numSamples : Int)
  | releaseResources
  | enterWriteToOutputFile (file : String)
  | createWriterFor (file : String) (sampleRate : ρ) (channelSet : χ) (bitsPerSample : Int)
  | flush
  | writeFromAudioSampleBuffer (buffer : AudioBuffer α) (startSample : Int) (numSamples : Int)
deriving DecidableEq

/-- How a function call ended. -/
inductive Status where
  | returned (code : Int)
  | nullDereference
  | outOfFuel
deriving DecidableEq

/-- Answers of the environment: file system, plugin scanner, audio formats. -/
structure World (σ α ρ χ : Type) where
  currentWorkingDirectory : String
  isAbsolutePath : String → Bool
  existsAsFile : String → Bool
  getFileExtension : String → String
  getFileName : String → String
  getFileNameWithoutExtension : String → String
  getParentDirectory : String → String
  getChildFile : String → String → String
  scanAndAddDragAndDroppedFiles : String → List PluginDescription
  createPluginInstance : PluginDescription → Option (AudioPluginInstance σ α ρ)
  createReaderFor : String → Option (AudioFormatReader α ρ χ)
  createWriterFor : String → ρ → χ → Int → Bool

/-! ## Buffers and sub-buffers -/

section Buffers
variable {α : Type}

/-- Frames `[start, start + num)` of one channel. -/
def window (ch : List α) (start num : Nat) : List α := (ch.drop start).take num

/-- One channel after `blk` was stored at frame `start`. -/
def overwrite (ch : List α) (start : Nat) (blk : List α) : List α :=
  ch.take start ++ blk ++ ch.drop (start + blk.length)

/-- The aliasing constructor `AudioBuffer (dataToReferTo, numChannelsToUse, startSample,
numSamples)`: what the view shows. -/
def AudioBuffer.subBuffer (b : AudioBuffer α) (numChannelsToUse : Nat)
    (startSample numSamples : Int) : AudioBuffer α :=
  { numSamples := numSamples.toNat
    channels := (b.channels.take numChannelsToUse).map
      (fun ch => window ch startSample.toNat numSamples.toNat) }

/-- The parent buffer after the view at `startSample` was left holding `blk`. -/
def AudioBuffer.writeThrough (b : AudioBuffer α) (numChannelsToUse : Nat)
    (startSample : Int) (blk : AudioBuffer α) : AudioBuffer α :=
  { numSamples := b.numSamples
    channels := List.zipWith (fun ch o => overwrite ch startSample.toNat o)
        (b.channels.take numChannelsToUse) blk.channels
      ++ b.channels.drop numChannelsToUse }

/-- The buffer after `buffer.setSize (numChannels, (int) lengthInSamples)` and
`reader->read (...)` (Main.cpp:167-168). -/
def AudioFormatReader.readBuffer {ρ χ : Type} (reader : AudioFormatReader α ρ χ) :
    AudioBuffer α :=
  { numSamples := (wrapInt32 reader.lengthInSamples).toNat
    channels := (List.range reader.numChannels).map (fun c =>
      (List.range (wrapInt32 reader.lengthInSamples).toNat).map (reader.sample c)) }

end Buffers

/-! ## The program -/

section Program
variable {σ α ρ χ : Type}

/-- What the render loop carries from one iteration to the next. -/
structure LoopState (σ α ρ χ : Type) where
  plugin : σ
  buffer : AudioBuffer α
  events : List (Event α ρ χ)

/-- The body of the render loop after `samplesToProcess` is known (Main.cpp:180-183):
build the sub-buffer at `n`, hand it to the plugin, keep what the plugin left in it. -/
def processSubBlock (p : AudioPluginInstance σ α ρ) (numChannels : Nat)
    (n samplesToProcess : Int) (st : LoopState σ α ρ χ) : LoopState σ α ρ χ :=
  let subBuffer := st.buffer.subBuffer numChannels n samplesToProcess
  let r := p.processBlock subBuffer st.plugin
  { plugin := r.1
    buffer := st.buffer.writeThrough numChannels n r.2
    events := st.events ++ [Event.processBlock numChannels n samplesToProcess] }

/-- The `for` loop of `process` (Main.cpp:176-184), entered with counter `n`.
The boolean tells whether the loop condition became false within the fuel. -/
def renderLoop (p : AudioPluginInstance σ α ρ) (numChannels : Nat) (lengthInSamples : Int) :
    Nat → Int → LoopState σ α ρ χ → Bool × LoopState σ α ρ χ
  | 0, _, st => (false, st)
  | fuel + 1, n, st =>
    if n < lengthInSamples then
      let samplesToProcess := jmin blockSize (wrapInt32 (wrapInt32 lengthInSamples - n))
      renderLoop p numChannels lengthInSamples fuel (wrapInt32 (n + blockSize))
        (processSubBlock p numChannels n samplesToProcess st)
    else (true, st)

/-- Result of `process`: how it ended, the global `fileInfo`, the caller's buffer, the
plugin and the actions performed. -/
structure ProcessResult (σ α ρ χ : Type) where
  status : Status
  fileInfo : FileInfo ρ χ
  buffer : AudioBuffer α
  plugin : Option (AudioPluginInstance σ α ρ)
  events : List (Event α ρ χ)

/-- The loop state on entry to the render loop: the buffer as read, and the plugin after
`setNonRealtime (true)` and `prepareToPlay (sampleRate, blockSize)` (Main.cpp:166-173). -/
def prepare (p : AudioPluginInstance σ α ρ) (reader : AudioFormatReader α ρ χ) :
    LoopState σ α ρ χ :=
  { plugin := p.prepareToPlay reader.sampleRate blockSize (p.setNonRealtime true p.state)
    buffer := reader.readBuffer
    events := [Event.setNonRealtime true, Event.prepareToPlay reader.sampleRate blockSize] }

/-- The function `process` (Main.cpp:150-189). `createReaderFor` is the method of the
format manager; `plugin` is the raw pointer, `none` when null. -/
def process (fuel : Nat) (createReaderFor : String → Option (AudioFormatReader α ρ χ))
    (inputFile : String) (plugin : Option (AudioPluginInstance σ α ρ))
    (fileInfo : FileInfo ρ χ) (buffer : AudioBuffer α) : ProcessResult σ α ρ χ :=
  match createReaderFor inputFile with
  | none =>
    { status := Status.returned 1, fileInfo := fileInfo, buffer := buffer, plugin := plugin
      events := [Event.cout "Error: unable to read input file"] }
  | some reader =>
    let info : FileInfo ρ χ :=
      { sampleRate := reader.sampleRate
        channelSet := reader.channelLayout
        bitsPerSample := reader.bitsPerSample }
    match plugin with
    | none =>
      { status := Status.nullDereference, fileInfo := info, buffer := reader.readBuffer
        plugin := none, events := [] }
    | some p =>
      let r := renderLoop p reader.numChannels reader.lengthInSamples fuel 0 (prepare p reader)
      if r.1 then
        { status := Status.returned 0, fileInfo := info, buffer := r.2.buffer
          plugin := some { p with state := p.releaseResources r.2.plugin }
          events := r.2.events ++ [Event.releaseResources] }
      else
        { status := Status.outOfFuel, fileInfo := info, buffer := r.2.buffer
          plugin := some { p with state := r.2.plugin }
          events := r.2.events }

/-- A `File` built from a command-line argument (Main.cpp:59-62, 70-73, 131-134). -/
def resolvePath (w : World σ α ρ χ) (arg : String) : String :=
  if ! w.isAbsolutePath arg then w.currentWorkingDirectory ++ "/" ++ arg else arg

/-- Return code and messages of a check. -/
structure CheckResult (α ρ χ : Type) where
  ret : Int
  events : List (Event α ρ χ)

/-- The function `checkFileHasExtention` (Main.cpp:98-108). -/
def checkFileHasExtention (w : World σ α ρ χ) (file : String) (extention : String) :
    CheckResult α ρ χ :=
  if w.getFileExtension file != extention then
    { ret := 1
      events := [Event.cout ("Error: " ++ w.getFileName file ++ " is not a "
        ++ extention ++ " file")] }
  else { ret := 0, events := [] }

/-- The function `checkInputFile` (Main.cpp:110-119). -/
def checkInputFile (w : World σ α ρ χ) (file : String) : CheckResult α ρ χ :=
  if ! w.existsAsFile file then
    { ret := 1, events := [Event.cout ("Error: " ++ w.getFileName file ++ " does not exist")] }
  else checkFileHasExtention w file ".wav"

/-- Return code, out-parameter and messages of `getPlugin`. -/
structure GetPluginResult (σ α ρ χ : Type) where
  ret : Int
  plugin : Option (AudioPluginInstance σ α ρ)
  events : List (Event α ρ χ)

/-- The function `getPlugin` (Main.cpp:121-148); `plugin` is the out-parameter as the
caller passed it. -/
def getPlugin (w : World σ α ρ χ) (plugin : Option (AudioPluginInstance σ α ρ))
    (file : String) : GetPluginResult σ α ρ χ :=
  match w.scanAndAddDragAndDroppedFiles (resolvePath w file) with
  | [] => { ret := 1, plugin := plugin, events := [Event.cout "Error: unable to load plugin"] }
  | first :: _ => { ret := 0, plugin := w.createPluginInstance first, events := [] }

/-- How `writeToOutputFile` ended and what it did. -/
structure WriteResult (α ρ χ : Type) where
  status : Status
  events : List (Event α ρ χ)

/-- The function `writeToOutputFile` (Main.cpp:191-200); a writer that could not be
created is a null pointer. -/
def writeToOutputFile (w : World σ α ρ χ) (file : String) (fileInfo : FileInfo ρ χ)
    (buffer : AudioBuffer α) : WriteResult α ρ χ :=
  if w.createWriterFor file fileInfo.sampleRate fileInfo.channelSet fileInfo.bitsPerSample then
    { status := Status.returned 0
      events := [Event.createWriterFor file fileInfo.sampleRate fileInfo.channelSet
          fileInfo.bitsPerSample,
        Event.flush,
        Event.writeFromAudioSampleBuffer buffer 0 buffer.numSamples] }
  else
    { status := Status.nullDereference
      events := [Event.createWriterFor file fileInfo.sampleRate fileInfo.channelSet
          fileInfo.bitsPerSample] }

/-- The output `File` of `main` (Main.cpp:67-81) once its extension was accepted. -/
def outputFile (w : World σ α ρ χ) (argv : List String) (inputFile : String) : String :=
  if (argv.length : Int) = 4 then resolvePath w (argv.getD 3 "")
  else w.getChildFile (w.getParentDirectory inputFile)
    (w.getFileNameWithoutExtension inputFile ++ "-out.wav")

/-- How `main` ended, the global `fileInfo` it left and everything it did. -/
structure MainResult (α ρ χ : Type) where
  status : Status
  fileInfo : FileInfo ρ χ
  events : List (Event α ρ χ)

/-- The function `main` (Main.cpp:40-96); `argv` includes the program name, so
`argc = argv.length`. -/
def main [OfScientific ρ] [EmptyCollection χ] (fuel : Nat) (w : World σ α ρ χ)
    (argv : List String) : MainResult α ρ χ :=
  let argc : Int := argv.length
  if argc < 3 ∨ argc > 4 then
    { status := Status.returned 1, fileInfo := FileInfo.initial
      events := [Event.cout "Error: Must have 2 or 3 parameters"] }
  else
    let g := getPlugin w none (argv.getD 1 "")
    if g.ret ≠ 0 then
      { status := Status.returned g.ret, fileInfo := FileInfo.initial, events := g.events }
    else
      let inputFile := resolvePath w (argv.getD 2 "")
      let c := checkInputFile w inputFile
      if c.ret ≠ 0 then
        { status := Status.returned c.ret, fileInfo := FileInfo.initial
          events := g.events ++ c.events }
      else
        let x : CheckResult α ρ χ :=
          if argc = 4 then checkFileHasExtention w (resolvePath w (argv.getD 3 "")) ".wav"
          else { ret := 0, events := [] }
        if x.ret ≠ 0 then
          { status := Status.returned x.ret, fileInfo := FileInfo.initial
            events := g.events ++ c.events ++ x.events }
        else
          let outFile := outputFile w argv inputFile
          let pre := g.events ++ c.events ++ x.events
            ++ [Event.createFile outFile, Event.enterProcess inputFile]
          let r := process fuel w.createReaderFor inputFile g.plugin FileInfo.initial
            AudioBuffer.empty
          match r.status with
          | Status.returned 0 =>
            let wr := writeToOutputFile w outFile r.fileInfo r.buffer
            { status := wr.status, fileInfo := r.fileInfo
              events := pre ++ r.events ++ [Event.enterWriteToOutputFile outFile] ++ wr.events }
          | s => { status := s, fileInfo := r.fileInfo, events := pre ++ r.events }

end Program

end PluginRunner

/-! ## Vocabulary of the properties -/

namespace PluginRunner

section Vocabulary
variable {σ α ρ χ : Type}

/-- Offset and length of the sub-buffer of a `processBlock` call. -/
def blockOf : Event α ρ χ → Option (Int × Int)
  | Event.processBlock _ n len => some (n, len)
  | _ => none

/-- The `(offset, length)` pairs of the `processBlock` calls of a log, in call order. -/
def blocksOf (events : List (Event α ρ χ)) : List (Int × Int) := events.filterMap blockOf

/-- The values of the loop counter `n` at which `n += blockSize` is evaluated: one per
executed loop body, the offset of its `processBlock` call. -/
def incrementOperands (events : List (Event α ρ χ)) : List Int :=
  (blocksOf events).map Prod.fst

/-- The `processBlock` event of a block of `numChannels` channels. -/
def blockEvent (numChannels : Nat) (blk : Int × Int) : Event α ρ χ :=
  Event.processBlock numChannels blk.1 blk.2

/-- Number of blocks of a list whose frame range contains frame `f`. -/
def coverCount (f : Int) (blocks : List (Int × Int)) : Nat :=
  (blocks.filter (fun blk => decide (blk.1 ≤ f ∧ f < blk.1 + blk.2))).length

/-- Blocks that tile `[a, b)`: the first starts at `a`, each one is non-empty and starts
where the previous one ended, the last ends at `b`. -/
def Tiles : Int → List (Int × Int) → Int → Prop
  | a, [], b => a = b
  | a, blk :: rest, b => blk.1 = a ∧ 0 < blk.2 ∧ Tiles (blk.1 + blk.2) rest b

/-- The blocks an overflow-free loop visits from counter `n` on, at most `k` of them. -/
def blockSchedule (F : Int) : Nat → Int → List (Int × Int)
  | 0, _ => []
  | k + 1, n => if n < F then (n, min 512 (F - n)) :: blockSchedule F k (n + 512) else []

end Vocabulary

end PluginRunner

namespace PluginRunner

/-! ## Concrete inputs -/

/-- The blocks cover `[0, F)` exactly: the first starts at 0, each next one starts where
the previous one ended, the last ends at `F`, the offsets strictly increase, every block
is a non-empty range inside `[0, F)`, and every frame of `[0, F)` lies in exactly one. -/
structure ExactCover (F : Int) (bs : List (Int × Int)) : Prop where
  first : ∀ blk, bs.head? = some blk → blk.1 = 0
  next : List.Chain' (fun x y : Int × Int => y.1 = x.1 + x.2) bs
  last : ∀ blk, bs.getLast? = some blk → blk.1 + blk.2 = F
  increasing : List.Pairwise (fun x y : Int × Int => x.1 < y.1) bs
  inside : ∀ blk ∈ bs, 0 ≤ blk.1 ∧ 0 < blk.2 ∧ blk.1 + blk.2 ≤ F
  once : ∀ f : Int, 0 ≤ f → f < F → coverCount f bs = 1

/-- A pass-through plugin whose state counts the blocks it was given. -/
def countingPlugin : AudioPluginInstance Nat Int Rat :=
  { state := 0
    setNonRealtime := fun _ s => s
    prepareToPlay := fun _ _ _ => 0
    processBlock := fun b s => (s + 1, b)
    releaseResources := fun s => s }

/-- A plugin that adds to every sample the number of blocks it has been given, the
current one included: its output depends on the state the earlier blocks left. -/
def staircasePlugin : AudioPluginInstance Nat Int Rat :=
  { state := 0
    setNonRealtime := fun _ s => s
    prepareToPlay := fun _ _ _ => 0
    processBlock := fun b s =>
      (s + 1, { numSamples := b.numSamples
                channels := b.channels.map (fun ch => ch.map (fun x => x + ((s + 1 : Nat) : Int))) })
    releaseResources := fun s => s }

/-- A stereo file of `F` frames, 48 kHz, 24 bits; frame `i` of channel `c` holds
`1000 * c + i`. -/
def stereoReader (F : Int) : AudioFormatReader Int Rat (List Nat) :=
  { sampleRate := 48000
    channelLayout := [1, 2]
    bitsPerSample := 24
    numChannels := 2
    lengthInSamples := F
    sample := fun c i => 1000 * (c : Int) + (i : Int) }

/-- A mono file of 2^31 - 1 frames, 8 bits per sample. -/
def longReader : AudioFormatReader Int Rat (List Nat) :=
  { sampleRate := 8000
    channelLayout := [3]
    bitsPerSample := 8
    numChannels := 1
    lengthInSamples := 2147483647
    sample := fun _ _ => 0 }

/-- One render pass of `countingPlugin` over the file the reader decodes. -/
def renderOf (fuel : Nat) (reader : AudioFormatReader Int Rat (List Nat)) :
    ProcessResult Nat Int Rat (List Nat) :=
  process fuel (fun _ => some reader) "/in.wav" (some countingPlugin) FileInfo.initial
    AudioBuffer.empty

end PluginRunner

namespace PluginRunner

/-- Events that are calls on the plugin. -/
def Event.isPluginCall {α ρ χ : Type} : Event α ρ χ → Bool
  | Event.setNonRealtime _ => true
  | Event.prepareToPlay _ _ => true
  | Event.processBlock _ _ _ => true
  | Event.releaseResources => true
  | _ => false

/-- Events of `writeToOutputFile`: entering it and the calls on the writer. -/
def Event.isWrite {α ρ χ : Type} : Event α ρ χ → Bool
  | Event.enterWriteToOutputFile _ => true
  | Event.createWriterFor _ _ _ _ => true
  | Event.flush => true
  | Event.writeFromAudioSampleBuffer _ _ _ => true
  | _ => false

/-- Events that are messages on standard output. -/
def Event.isCout {α ρ χ : Type} : Event α ρ χ → Bool
  | Event.cout _ => true
  | _ => false

/-- A machine with one loadable plugin (`/gain.vst3`, instantiated as `countingPlugin`),
one decodable file (`/in.wav`, 1025 stereo frames) and one file that exists but cannot
be decoded (`/noise.wav`). The scan finds nothing at `/missing.vst3` and a description
at any other path; only `/gain.vst3` can be instantiated. -/
def studio : World Nat Int Rat (List Nat) :=
  { currentWorkingDirectory := "/home"
    isAbsolutePath := fun _ => true
    existsAsFile := fun f => f == "/in.wav" || f == "/noise.wav"
    getFileExtension := fun _ => ".wav"
    getFileName := fun f => f
    getFileNameWithoutExtension := fun f => f
    getParentDirectory := fun _ => "/out"
    getChildFile := fun d n => d ++ n
    scanAndAddDragAndDroppedFiles := fun f =>
      if f = "/missing.vst3" then [] else [{ fileOrIdentifier := f }]
    createPluginInstance := fun d =>
      if d.fileOrIdentifier = "/gain.vst3" then some countingPlugin else none
    createReaderFor := fun f => if f = "/in.wav" then some (stereoReader 1025) else none
    createWriterFor := fun _ _ _ _ => true }

end PluginRunner

namespace PluginRunner

/-! ## Vocabulary of the in-place postcondition -/

section InPlaceVocabulary
variable {σ α ρ : Type}

/-- The plugin leaves in a block as many channels and frames as it was given. -/
def ShapePreserving (p : AudioPluginInstance σ α ρ) : Prop :=
  ∀ (b : AudioBuffer α) (s : σ),
    (p.processBlock b s).2.numSamples = b.numSamples
    ∧ (p.processBlock b s).2.channels.map List.length = b.channels.map List.length

/-- Frames `[512 k, 512 k + min (512, F - 512 k))` of the input: block `k` as read. -/
def blockInput (input : AudioBuffer α) (C : Nat) (F : Int) (k : Nat) : AudioBuffer α :=
  input.subBuffer C (512 * (k : Int)) (min 512 (F - 512 * (k : Int)))

/-- The plugin state left by blocks `0 .. k - 1`, each processed on the input frames of
its range, starting from state `s0`. -/
def pluginStateBefore (p : AudioPluginInstance σ α ρ) (input : AudioBuffer α) (C : Nat)
    (F : Int) (s0 : σ) : Nat → σ
  | 0 => s0
  | k + 1 => (p.processBlock (blockInput input C F k) (pluginStateBefore p input C F s0 k)).1

/-- What the plugin returns for block `k`, given the input frames of that range and the
state left by the blocks before it. -/
def blockOutput (p : AudioPluginInstance σ α ρ) (input : AudioBuffer α) (C : Nat)
    (F : Int) (s0 : σ) (k : Nat) : AudioBuffer α :=
  (p.processBlock (blockInput input C F k) (pluginStateBefore p input C F s0 k)).2

end InPlaceVocabulary

end PluginRunner

namespace PluginRunner

/-- The loop invariant of the render loop before block `j`: the buffer has kept its shape,
the frames from `512 j` on are still the input, the plugin is in the state left by blocks
`0 .. j - 1`, and the frames of every earlier block hold what the plugin returned. -/
structure RenderInv {σ α ρ χ : Type} (p : AudioPluginInstance σ α ρ) (input : AudioBuffer α)
    (C : Nat) (F : Int) (s0 : σ) (j : Nat) (st : LoopState σ α ρ χ) : Prop where
  numSamples : st.buffer.numSamples = input.numSamples
  channels : st.buffer.channels.length = C
  frames : ∀ ch ∈ st.buffer.channels, ch.length = F.toNat
  rest : st.buffer.channels.map (fun ch => ch.drop (512 * j))
    = input.channels.map (fun ch => ch.drop (512 * j))
  plugin : st.plugin = pluginStateBefore p input C F s0 j
  done : ∀ k < j,
    st.buffer.channels.map (fun ch => window ch (512 * k) (min 512 (F - 512 * (k : Int))).toNat)
      = (blockOutput p input C F s0 k).channels

end PluginRunner

namespace PluginRunner

/-! ## Machine arithmetic of the loop -/

theorem wrapInt32_eq {x : Int} (h1 : -2147483648 ≤ x) (h2 : x ≤ 2147483647) :
    wrapInt32 x = x := by
  unfold wrapInt32; omega

theorem samplesToProcess_eq {F n : Int} (hn : 0 ≤ n) (hnF : n < F) (hF : F ≤ 2147483647) :
    jmin blockSize (wrapInt32 (wrapInt32 F - n)) = min 512 (F - n) := by
  rw [wrapInt32_eq (by omega) hF, wrapInt32_eq (by omega) (by omega)]
  unfold jmin blockSize
  split <;> omega

section Loop
variable {σ α ρ χ : Type}
variable (p : AudioPluginInstance σ α ρ) (C : Nat) (F : Int)

theorem processSubBlock_events (n len : Int) (st : LoopState σ α ρ χ) :
    (processSubBlock p C n len st).events = st.events ++ [blockEvent C (n, len)] := rfl

theorem renderLoop_exit (fuel : Nat) {n : Int} (h : ¬ n < F) (st : LoopState σ α ρ χ) :
    renderLoop p C F (fuel + 1) n st = (true, st) := by
  simp [renderLoop, h]

theorem renderLoop_step (fuel : Nat) {n : Int} (hn : 0 ≤ n) (hnF : n < F)
    (hF : F ≤ 2147483647) (hs : n + 512 ≤ 2147483647) (st : LoopState σ α ρ χ) :
    renderLoop p C F (fuel + 1) n st
      = renderLoop p C F fuel (n + 512) (processSubBlock p C n (min 512 (F - n)) st) := by
  have h1 : wrapInt32 (n + blockSize) = n + 512 := by
    unfold blockSize; exact wrapInt32_eq (by omega) hs
  rw [renderLoop, if_pos hnF]
  simp only [samplesToProcess_eq hn hnF hF, h1]

theorem blockSchedule_of_le (k : Nat) {n : Int} (h : F ≤ n) : blockSchedule F k n = [] := by
  cases k with
  | zero => rfl
  | succ k => simp [blockSchedule, Int.not_lt.mpr h]

/-- While the counter cannot overflow, `k` iterations of the loop log the first `k` blocks
of the schedule and leave the counter at `n + 512 * k`. -/
theorem renderLoop_advance (hF : F ≤ 2147483647) :
    ∀ (k fuel : Nat) (n : Int) (st : LoopState σ α ρ χ), 0 ≤ n →
      n + 512 * (k : Int) ≤ 2147483647 → n + 512 * (k : Int) < F + 512 →
      ∃ st2 : LoopState σ α ρ χ,
        renderLoop p C F (k + fuel) n st = renderLoop p C F fuel (n + 512 * (k : Int)) st2
        ∧ st2.events = st.events ++ (blockSchedule F k n).map (blockEvent C) := by
  intro k
  induction k with
  | zero =>
    intro fuel n st _ _ _
    exact ⟨st, by simp, by simp [blockSchedule]⟩
  | succ k ih =>
    intro fuel n st hn h1 h2
    have hnF : n < F := by push_cast at h2; omega
    obtain ⟨st2, e1, e2⟩ := ih fuel (n + 512) (processSubBlock p C n (min 512 (F - n)) st)
      (by omega) (by push_cast at h1; omega) (by push_cast at h2; omega)
    refine ⟨st2, ?_, ?_⟩
    · have : k + 1 + fuel = (k + fuel) + 1 := by omega
      rw [this, renderLoop_step p C F (k + fuel) hn hnF hF (by push_cast at h1; omega), e1]
      congr 1; push_cast; ring
    · rw [e2, processSubBlock_events]
      simp [blockSchedule, hnF]

/-- For a length of at most 2^31 - 512 the loop logs the schedule, whatever the fuel. -/
theorem renderLoop_safe_events (hF : F ≤ 2147483136) :
    ∀ (fuel : Nat) (n : Int) (st : LoopState σ α ρ χ), 0 ≤ n →
      (renderLoop p C F fuel n st).2.events
          = st.events ++ (blockSchedule F fuel n).map (blockEvent C) := by
  intro fuel
  induction fuel with
  | zero => intro n st _; simp [renderLoop, blockSchedule]
  | succ fuel ih =>
    intro n st hn
    by_cases hnF : n < F
    · rw [renderLoop_step p C F fuel hn hnF (by omega) (by omega),
        ih (n + 512) _ (by omega), processSubBlock_events]
      simp [blockSchedule, hnF]
    · rw [renderLoop_exit p C F fuel hnF]
      simp [blockSchedule, hnF]

/-- For a length of at most 2^31 - 512 the loop ends once the fuel covers its iterations. -/
theorem renderLoop_safe_exit (hF : F ≤ 2147483136) :
    ∀ (fuel : Nat) (n : Int) (st : LoopState σ α ρ χ), 0 ≤ n → n < F + 512 →
      F - n + 512 ≤ 512 * (fuel : Int) → (renderLoop p C F fuel n st).1 = true := by
  intro fuel
  induction fuel with
  | zero => intro n st _ h1 h2; simp at h2; omega
  | succ fuel ih =>
    intro n st hn h1 h2
    by_cases hnF : n < F
    · rw [renderLoop_step p C F fuel hn hnF (by omega) (by omega)]
      exact ih (n + 512) _ (by omega) (by omega) (by push_cast at h2; omega)
    · rw [renderLoop_exit p C F fuel hnF]

/-- Up to the first increment that leaves the range of `int` the loop logs the schedule:
with `fuel` units only the counters `n, n + 512, ..., n + 512 * (fuel - 1)` are used. -/
theorem renderLoop_events_before_overflow (hF : F ≤ 2147483647) :
    ∀ (fuel : Nat) (n : Int) (st : LoopState σ α ρ χ), 0 ≤ n →
      n + 512 * (fuel : Int) ≤ 2147483647 + 512 →
      (renderLoop p C F fuel n st).2.events
          = st.events ++ (blockSchedule F fuel n).map (blockEvent C) := by
  intro fuel
  induction fuel with
  | zero => intro n st _ _; simp [renderLoop, blockSchedule]
  | succ fuel ih =>
    intro n st hn hb
    by_cases hnF : n < F
    · rcases Nat.eq_zero_or_pos fuel with hz | hpos
      · subst hz
        rw [renderLoop, if_pos hnF]
        simp only [samplesToProcess_eq hn hnF hF, renderLoop, processSubBlock_events]
        simp [blockSchedule, hnF]
      · rw [renderLoop_step p C F fuel hn hnF hF (by push_cast at hb; omega),
          ih (n + 512) _ (by omega) (by push_cast at hb; omega), processSubBlock_events]
        simp [blockSchedule, hnF]
    · rw [renderLoop_exit p C F fuel hnF]
      simp [blockSchedule, hnF]

/-- At length 2^31 - 1 the counter runs through the multiples of 512 for ever: after
2^31 - 512 it wraps to -2^31, and every value it takes is below the length. -/
theorem renderLoop_never_exits :
    ∀ (fuel : Nat) (n : Int) (st : LoopState σ α ρ χ), -2147483648 ≤ n → n ≤ 2147483136 →
      n % 512 = 0 → (renderLoop p C 2147483647 fuel n st).1 = false := by
  intro fuel
  induction fuel with
  | zero => intro n st _ _ _; rfl
  | succ fuel ih =>
    intro n st h1 h2 h3
    rw [renderLoop, if_pos (by omega)]
    apply ih
    · unfold wrapInt32; omega
    · unfold wrapInt32 blockSize; omega
    · unfold wrapInt32 blockSize; omega

end Loop

end PluginRunner

namespace PluginRunner

/-! ## The block schedule -/

section Schedule
variable (F : Int)

theorem blockSchedule_mem : ∀ (k : Nat) (n : Int) (blk : Int × Int),
    blk ∈ blockSchedule F k n → n ≤ blk.1 ∧ blk.1 < F ∧ blk.2 = min 512 (F - blk.1) := by
  intro k
  induction k with
  | zero => intro n blk h; simp [blockSchedule] at h
  | succ k ih =>
    intro n blk h
    by_cases hnF : n < F
    · simp only [blockSchedule, if_pos hnF, List.mem_cons] at h
      rcases h with h | h
      · subst h; exact ⟨le_refl _, hnF, rfl⟩
      · have := ih (n + 512) blk h
        exact ⟨by omega, this.2.1, this.2.2⟩
    · simp [blockSchedule, hnF] at h

theorem blockSchedule_tiles : ∀ (k : Nat) (n : Int), n ≤ F → F - n ≤ 512 * (k : Int) →
    Tiles n (blockSchedule F k n) F := by
  intro k
  induction k with
  | zero => intro n h1 h2; simp at h2; simp only [blockSchedule, Tiles]; omega
  | succ k ih =>
    intro n h1 h2
    by_cases hnF : n < F
    · simp only [blockSchedule, if_pos hnF, Tiles]
      refine ⟨trivial, by omega, ?_⟩
      by_cases hlast : F - n ≤ 512
      · rw [blockSchedule_of_le F k (by omega)]
        simp only [Tiles]; omega
      · have e : n + min 512 (F - n) = n + 512 := by omega
        rw [e]
        exact ih (n + 512) (by omega) (by push_cast at h2; omega)
    · simp only [blockSchedule, if_neg hnF, Tiles]; omega

theorem blockSchedule_length : ∀ (k : Nat) (n : Int), F - n ≤ 512 * (k : Int) →
    ((blockSchedule F k n).length : Int) = ((F - n + 511) / 512).toNat := by
  intro k
  induction k with
  | zero => intro n h; simp at h; simp only [blockSchedule, List.length_nil]; omega
  | succ k ih =>
    intro n h
    by_cases hnF : n < F
    · simp only [blockSchedule, if_pos hnF, List.length_cons]
      have := ih (n + 512) (by push_cast at h; omega)
      push_cast
      omega
    · simp only [blockSchedule, if_neg hnF, List.length_nil]; omega

/-- When the length is no multiple of 512 the schedule ends with the remainder block, and
every block before it is full. -/
theorem blockSchedule_tail (hrem : F % 512 ≠ 0) : ∀ (k : Nat) (n : Int), 0 ≤ n →
    n % 512 = 0 → n < F → F - n ≤ 512 * (k : Int) →
    ∃ init : List (Int × Int),
      blockSchedule F k n = init ++ [(F - F % 512, F % 512)] ∧ ∀ blk ∈ init, blk.2 = 512 := by
  intro k
  induction k with
  | zero => intro n _ _ h3 h4; simp at h4; omega
  | succ k ih =>
    intro n h1 h2 h3 h4
    simp only [blockSchedule, if_pos h3]
    by_cases hlast : F - n < 512
    · refine ⟨[], ?_, by simp⟩
      rw [blockSchedule_of_le F k (by omega)]
      have e1 : F - F % 512 = n := by omega
      have e2 : min 512 (F - n) = F % 512 := by omega
      simp [e1, e2]
    · obtain ⟨init, e, hfull⟩ := ih (n + 512) (by omega) (by omega) (by omega)
        (by push_cast at h4; omega)
      refine ⟨(n, 512) :: init, ?_, ?_⟩
      · have e2 : min 512 (F - n) = 512 := by omega
        rw [e, e2]; rfl
      · intro blk hb
        simp only [List.mem_cons] at hb
        rcases hb with hb | hb
        · subst hb; rfl
        · exact hfull blk hb

end Schedule

/-! ## Tilings -/

theorem tiles_bounds : ∀ (bs : List (Int × Int)) (a b : Int), Tiles a bs b →
    a ≤ b ∧ ∀ blk ∈ bs, a ≤ blk.1 ∧ 0 < blk.2 ∧ blk.1 + blk.2 ≤ b := by
  intro bs
  induction bs with
  | nil => intro a b h; simp only [Tiles] at h; subst h; simp
  | cons x rest ih =>
    intro a b h
    obtain ⟨h1, h2, h3⟩ := h
    obtain ⟨h4, h5⟩ := ih _ _ h3
    refine ⟨by omega, ?_⟩
    intro blk hb
    simp only [List.mem_cons] at hb
    rcases hb with hb | hb
    · subst hb; exact ⟨by omega, h2, h4⟩
    · have := h5 blk hb
      exact ⟨by omega, this.2.1, this.2.2⟩

theorem tiles_chain : ∀ (bs : List (Int × Int)) (a b : Int), Tiles a bs b →
    List.Chain' (fun x y : Int × Int => y.1 = x.1 + x.2) bs := by
  intro bs
  induction bs with
  | nil => intro a b _; exact List.chain'_nil
  | cons x rest ih =>
    intro a b h
    obtain ⟨_, _, h3⟩ := h
    cases rest with
    | nil => exact List.chain'_singleton x
    | cons y rest2 =>
      exact List.Chain'.cons h3.1 (ih _ _ h3)

theorem tiles_pairwise : ∀ (bs : List (Int × Int)) (a b : Int), Tiles a bs b →
    List.Pairwise (fun x y : Int × Int => x.1 < y.1) bs := by
  intro bs
  induction bs with
  | nil => intro a b _; exact List.Pairwise.nil
  | cons x rest ih =>
    intro a b h
    obtain ⟨_, h2, h3⟩ := h
    refine List.Pairwise.cons ?_ (ih _ _ h3)
    intro y hy
    have := (tiles_bounds rest _ _ h3).2 y hy
    omega

theorem tiles_coverCount : ∀ (bs : List (Int × Int)) (a b : Int), Tiles a bs b →
    ∀ f : Int, (f < a → coverCount f bs = 0) ∧ (a ≤ f → f < b → coverCount f bs = 1) := by
  intro bs
  induction bs with
  | nil =>
    intro a b h f
    simp only [Tiles] at h
    subst h
    exact ⟨fun _ => rfl, fun h1 h2 => by omega⟩
  | cons x rest ih =>
    intro a b h f
    obtain ⟨h1, h2, h3⟩ := h
    obtain ⟨i1, i2⟩ := ih _ _ h3 f
    have hb := (tiles_bounds rest _ _ h3).1
    have hc : coverCount f (x :: rest)
        = (if x.1 ≤ f ∧ f < x.1 + x.2 then 1 else 0) + coverCount f rest := by
      unfold coverCount
      by_cases hx : x.1 ≤ f ∧ f < x.1 + x.2
      · simp [List.filter_cons, hx]; omega
      · simp [List.filter_cons, hx]
    constructor
    · intro hf
      rw [hc, i1 (by omega), if_neg (by omega)]
    · intro hf1 hf2
      by_cases hx : f < x.1 + x.2
      · rw [hc, i1 hx, if_pos ⟨by omega, hx⟩]
      · rw [hc, i2 (by omega) hf2, if_neg (by omega)]

theorem tiles_head : ∀ (bs : List (Int × Int)) (a b : Int), Tiles a bs b →
    ∀ blk, bs.head? = some blk → blk.1 = a := by
  intro bs a b h blk hb
  cases bs with
  | nil => simp at hb
  | cons x rest =>
    simp only [List.head?_cons, Option.some.injEq] at hb
    subst hb; exact h.1

theorem tiles_last : ∀ (bs : List (Int × Int)) (a b : Int), Tiles a bs b →
    ∀ blk, bs.getLast? = some blk → blk.1 + blk.2 = b := by
  intro bs
  induction bs with
  | nil => intro a b _ blk hb; simp at hb
  | cons x rest ih =>
    intro a b h blk hb
    obtain ⟨_, _, h3⟩ := h
    cases rest with
    | nil =>
      simp only [List.getLast?_singleton, Option.some.injEq] at hb
      subst hb
      simpa [Tiles] using h3
    | cons y rest2 =>
      rw [List.getLast?_cons_cons] at hb
      exact ih _ _ h3 blk hb

/-! ## Reading the log -/

section Log
variable {α ρ χ : Type}

theorem blocksOf_append (xs ys : List (Event α ρ χ)) :
    blocksOf (xs ++ ys) = blocksOf xs ++ blocksOf ys := by
  simp [blocksOf, List.filterMap_append]

theorem blocksOf_blockEvents (C : Nat) (bs : List (Int × Int)) :
    blocksOf (bs.map (blockEvent C : Int × Int → Event α ρ χ)) = bs := by
  induction bs with
  | nil => rfl
  | cons x rest ih =>
    simp only [blocksOf] at ih
    simp [blocksOf, List.filterMap_cons, blockEvent, blockOf, ih]

end Log

end PluginRunner

namespace PluginRunner

/-! ## The render pass as a whole -/

section Process
variable {σ α ρ χ : Type}
variable (fuel : Nat) (createReaderFor : String → Option (AudioFormatReader α ρ χ))
  (inputFile : String) (p : AudioPluginInstance σ α ρ) (fileInfo : FileInfo ρ χ)
  (buffer : AudioBuffer α)

theorem process_of_exit {reader : AudioFormatReader α ρ χ}
    (hr : createReaderFor inputFile = some reader)
    (hx : (renderLoop p reader.numChannels reader.lengthInSamples fuel 0
      (prepare p reader)).1 = true) :
    (process fuel createReaderFor inputFile (some p) fileInfo buffer).status = Status.returned 0
    ∧ (process fuel createReaderFor inputFile (some p) fileInfo buffer).events
      = (renderLoop p reader.numChannels reader.lengthInSamples fuel 0
          (prepare p reader)).2.events ++ [Event.releaseResources]
    ∧ (process fuel createReaderFor inputFile (some p) fileInfo buffer).buffer
      = (renderLoop p reader.numChannels reader.lengthInSamples fuel 0
          (prepare p reader)).2.buffer := by
  simp [process, hr, hx]

theorem process_of_no_exit {reader : AudioFormatReader α ρ χ}
    (hr : createReaderFor inputFile = some reader)
    (hx : (renderLoop p reader.numChannels reader.lengthInSamples fuel 0
      (prepare p reader)).1 = false) :
    (process fuel createReaderFor inputFile (some p) fileInfo buffer).status = Status.outOfFuel
    ∧ (process fuel createReaderFor inputFile (some p) fileInfo buffer).events
      = (renderLoop p reader.numChannels reader.lengthInSamples fuel 0
          (prepare p reader)).2.events := by
  simp [process, hr, hx]

/-- Within the safe range and with enough fuel, `process` returns 0 and its log is the two
preparing calls, the scheduled blocks and the release. -/
theorem process_safe {reader : AudioFormatReader α ρ χ}
    (hr : createReaderFor inputFile = some reader)
    (h0 : 0 ≤ reader.lengthInSamples) (hF : reader.lengthInSamples ≤ 2147483136)
    (hfuel : reader.lengthInSamples + 512 ≤ 512 * (fuel : Int)) :
    (process fuel createReaderFor inputFile (some p) fileInfo buffer).status = Status.returned 0
    ∧ (process fuel createReaderFor inputFile (some p) fileInfo buffer).events
      = [Event.setNonRealtime true, Event.prepareToPlay reader.sampleRate 512]
        ++ (blockSchedule reader.lengthInSamples fuel 0).map (blockEvent reader.numChannels)
        ++ [Event.releaseResources] := by
  have hx := renderLoop_safe_exit p reader.numChannels reader.lengthInSamples hF fuel 0
    (prepare p reader) (le_refl _) (by omega) (by omega)
  obtain ⟨e1, e2, _⟩ := process_of_exit fuel createReaderFor inputFile p fileInfo buffer hr hx
  refine ⟨e1, ?_⟩
  rw [e2, renderLoop_safe_events p reader.numChannels reader.lengthInSamples hF fuel 0
    (prepare p reader) (le_refl _)]
  rfl

theorem blocksOf_process_safe {reader : AudioFormatReader α ρ χ}
    (hr : createReaderFor inputFile = some reader)
    (hF : reader.lengthInSamples ≤ 2147483136) :
    blocksOf (process fuel createReaderFor inputFile (some p) fileInfo buffer).events
      = blockSchedule reader.lengthInSamples fuel 0 := by
  have hev := renderLoop_safe_events p reader.numChannels reader.lengthInSamples hF fuel 0
    (prepare p reader) (le_refl _)
  cases hx : (renderLoop p reader.numChannels reader.lengthInSamples fuel 0
      (prepare p reader)).1 with
  | true =>
    obtain ⟨_, e2, _⟩ := process_of_exit fuel createReaderFor inputFile p fileInfo buffer hr hx
    rw [e2, hev, blocksOf_append, blocksOf_append, blocksOf_blockEvents]
    simp [blocksOf, prepare, blockOf]
  | false =>
    obtain ⟨_, e2⟩ := process_of_no_exit fuel createReaderFor inputFile p fileInfo buffer hr hx
    rw [e2, hev, blocksOf_append, blocksOf_blockEvents]
    simp [blocksOf, prepare, blockOf]

/-- At length 2^31 - 1 `process` never returns, whatever the fuel. -/
theorem process_never_returns (reader : AudioFormatReader α ρ χ)
    (hr : createReaderFor inputFile = some reader)
    (hF : reader.lengthInSamples = 2147483647) :
    (process fuel createReaderFor inputFile (some p) fileInfo buffer).status
      = Status.outOfFuel := by
  have hx := renderLoop_never_exits p reader.numChannels fuel 0 (prepare p reader)
    (by omega) (by omega) (by omega)
  rw [← hF] at hx
  exact (process_of_no_exit fuel createReaderFor inputFile p fileInfo buffer hr hx).1

/-- Above 2^31 - 512 (and within `int`) the loop reaches counter 2^31 - 512, whose
increment by 512 leaves the range of `int`. -/
theorem process_reaches_last_multiple {reader : AudioFormatReader α ρ χ}
    (hr : createReaderFor inputFile = some reader)
    (h1 : 2147483136 < reader.lengthInSamples) (h2 : reader.lengthInSamples ≤ 2147483647) :
    (2147483136 : Int) ∈ incrementOperands
      (process 4194304 createReaderFor inputFile (some p) fileInfo buffer).events := by
  obtain ⟨st2, e1, _⟩ := renderLoop_advance p reader.numChannels reader.lengthInSamples h2
    4194303 1 0 (prepare p reader) (le_refl _) (by norm_num) (by norm_num; omega)
  have e3 : (4194303 : Nat) + 1 = 4194304 := by norm_num
  have e4 : (0 : Int) + 512 * ((4194303 : Nat) : Int) = 2147483136 := by norm_num
  rw [e3, e4] at e1
  have hlt : (2147483136 : Int) < reader.lengthInSamples := h1
  have e5 : renderLoop p reader.numChannels reader.lengthInSamples 1 2147483136 st2
      = (false, processSubBlock p reader.numChannels 2147483136
          (jmin blockSize (wrapInt32 (wrapInt32 reader.lengthInSamples - 2147483136))) st2) := by
    simp [renderLoop, hlt]
  have hx : (renderLoop p reader.numChannels reader.lengthInSamples 4194304 0
      (prepare p reader)).1 = false := by rw [e1, e5]
  obtain ⟨_, e6⟩ := process_of_no_exit 4194304 createReaderFor inputFile p fileInfo buffer hr hx
  rw [e6, e1, e5]
  simp [incrementOperands, processSubBlock_events, blocksOf_append, blocksOf, blockEvent, blockOf]

/-- Whatever the length, the loop only ever appends `processBlock` events. -/
theorem renderLoop_events_shape (C : Nat) (F : Int) :
    ∀ (fuel : Nat) (n : Int) (st : LoopState σ α ρ χ), ∃ bs : List (Int × Int),
      (renderLoop p C F fuel n st).2.events = st.events ++ bs.map (blockEvent C) := by
  intro fuel
  induction fuel with
  | zero => intro n st; exact ⟨[], by simp [renderLoop]⟩
  | succ fuel ih =>
    intro n st
    by_cases hnF : n < F
    · obtain ⟨bs, e⟩ := ih (wrapInt32 (n + blockSize))
        (processSubBlock p C n (jmin blockSize (wrapInt32 (wrapInt32 F - n))) st)
      refine ⟨(n, jmin blockSize (wrapInt32 (wrapInt32 F - n))) :: bs, ?_⟩
      rw [renderLoop, if_pos hnF]
      simp only [e, processSubBlock_events]
      simp
    · exact ⟨[], by simp [renderLoop, hnF]⟩

/-- At length 2^31 - 1 the plugin is never released. -/
theorem process_never_releases (reader : AudioFormatReader α ρ χ)
    (hr : createReaderFor inputFile = some reader)
    (hF : reader.lengthInSamples = 2147483647) :
    Event.releaseResources
      ∉ (process fuel createReaderFor inputFile (some p) fileInfo buffer).events := by
  have hx := renderLoop_never_exits p reader.numChannels fuel 0 (prepare p reader)
    (by omega) (by omega) (by omega)
  rw [← hF] at hx
  rw [(process_of_no_exit fuel createReaderFor inputFile p fileInfo buffer hr hx).2]
  obtain ⟨bs, e⟩ := renderLoop_events_shape p reader.numChannels reader.lengthInSamples fuel 0
    (prepare p reader)
  rw [e]
  simp [prepare, blockEvent]

/-- At length 2^31 - 1, after the block at 2^31 - 512 (of length 511) the counter wraps
and the next block is built at offset -2^31 with length -1. -/
theorem process_wraps (reader : AudioFormatReader α ρ χ)
    (hr : createReaderFor inputFile = some reader)
    (hF : reader.lengthInSamples = 2147483647) :
    blocksOf (process 4194305 createReaderFor inputFile (some p) fileInfo buffer).events
      = blockSchedule 2147483647 4194303 0 ++ [(2147483136, 511), (-2147483648, -1)] := by
  obtain ⟨st2, e1, e2⟩ := renderLoop_advance p reader.numChannels reader.lengthInSamples
    (by omega) 4194303 2 0 (prepare p reader) (le_refl _) (by norm_num) (by norm_num; omega)
  have e3 : (4194303 : Nat) + 2 = 4194305 := by norm_num
  have e4 : (0 : Int) + 512 * ((4194303 : Nat) : Int) = 2147483136 := by norm_num
  rw [e3, e4] at e1
  have w1 : wrapInt32 (2147483136 + blockSize) = -2147483648 := by decide
  have w2 : jmin blockSize (wrapInt32 (wrapInt32 2147483647 - 2147483136)) = 511 := by decide
  have w3 : jmin blockSize (wrapInt32 (wrapInt32 2147483647 - -2147483648)) = -1 := by decide
  have e5 : renderLoop p reader.numChannels reader.lengthInSamples 2 2147483136 st2
      = (false, processSubBlock p reader.numChannels (-2147483648) (-1)
          (processSubBlock p reader.numChannels 2147483136 511 st2)) := by
    rw [hF]
    rw [renderLoop, if_pos (by norm_num)]
    simp only [w1, w2]
    rw [renderLoop, if_pos (by norm_num)]
    simp only [w3]
    rfl
  have hx : (renderLoop p reader.numChannels reader.lengthInSamples 4194305 0
      (prepare p reader)).1 = false := by rw [e1, e5]
  obtain ⟨_, e6⟩ := process_of_no_exit 4194305 createReaderFor inputFile p fileInfo buffer hr hx
  have b0 : blocksOf (prepare p reader).events = [] := rfl
  have b1 : ∀ blk : Int × Int,
      blocksOf [(blockEvent reader.numChannels blk : Event α ρ χ)] = [blk] := fun _ => rfl
  have b2 : ∀ x y : Int × Int, blocksOf [(blockEvent reader.numChannels x : Event α ρ χ),
      blockEvent reader.numChannels y] = [x, y] := fun _ _ => rfl
  rw [e6, e1, e5, processSubBlock_events, processSubBlock_events, e2, hF]
  simp only [blocksOf_append, blocksOf_blockEvents, b0, b1, b2, List.append_assoc,
    List.nil_append, List.singleton_append]

/-- At length 2^31 - 1, when the loop body has run 4194304 times the log holds the two
preparing calls and the scheduled blocks, and the loop has not been left: only the
increment of the counter 2^31 - 512 separates this point from the next test. -/
theorem process_at_overflow (reader : AudioFormatReader α ρ χ)
    (hr : createReaderFor inputFile = some reader)
    (hF : reader.lengthInSamples = 2147483647) :
    (process 4194304 createReaderFor inputFile (some p) fileInfo buffer).status
      = Status.outOfFuel
    ∧ (process 4194304 createReaderFor inputFile (some p) fileInfo buffer).events
      = [Event.setNonRealtime true, Event.prepareToPlay reader.sampleRate 512]
        ++ (blockSchedule 2147483647 4194304 0).map (blockEvent reader.numChannels)
    ∧ blocksOf (process 4194304 createReaderFor inputFile (some p) fileInfo buffer).events
      = blockSchedule 2147483647 4194304 0 := by
  have hx := renderLoop_never_exits p reader.numChannels 4194304 0 (prepare p reader)
    (by omega) (by omega) (by omega)
  rw [← hF] at hx
  obtain ⟨e1, e2⟩ := process_of_no_exit 4194304 createReaderFor inputFile p fileInfo buffer
    hr hx
  have e3 := renderLoop_events_before_overflow p reader.numChannels reader.lengthInSamples
    (by omega) 4194304 0 (prepare p reader) (le_refl _) (by norm_num)
  rw [hF] at e3
  have b0 : blocksOf (prepare p reader).events = [] := rfl
  refine ⟨e1, ?_, ?_⟩
  · rw [e2, hF, e3]; rfl
  · rw [e2, hF, e3, blocksOf_append, blocksOf_blockEvents, b0, List.nil_append]

theorem process_buffer_of_no_exit {reader : AudioFormatReader α ρ χ}
    (hr : createReaderFor inputFile = some reader)
    (hx : (renderLoop p reader.numChannels reader.lengthInSamples fuel 0
      (prepare p reader)).1 = false) :
    (process fuel createReaderFor inputFile (some p) fileInfo buffer).buffer
      = (renderLoop p reader.numChannels reader.lengthInSamples fuel 0
          (prepare p reader)).2.buffer := by
  simp [process, hr, hx]

end Process

end PluginRunner

namespace PluginRunner

/-! ## Block sequencing (claims C1, C2, C3, C9, C10) -/

section Claims
variable {σ α ρ χ : Type}

theorem exactCover_of_tiles {F : Int} {bs : List (Int × Int)} (h : Tiles 0 bs F) :
    ExactCover F bs :=
  { first := tiles_head bs 0 F h
    next := tiles_chain bs 0 F h
    last := tiles_last bs 0 F h
    increasing := tiles_pairwise bs 0 F h
    inside := (tiles_bounds bs 0 F h).2
    once := fun f h1 h2 => (tiles_coverCount bs 0 F h f).2 h1 h2 }

/-- Block coverage below the overflow: for every frame count `F` with
`0 ≤ F ≤ 2^31 - 512`, `process` returns 0 and the `(offset, length)` pairs of its `processBlock` calls start at 0, each start where
the previous one ended, end at `F`, are in strictly increasing offset order, and cover
every frame of `[0, F)` exactly once. -/
theorem block_coverage (fuel : Nat)
    (createReaderFor : String → Option (AudioFormatReader α ρ χ)) (inputFile : String)
    (p : AudioPluginInstance σ α ρ) (fileInfo : FileInfo ρ χ) (buffer : AudioBuffer α)
    (reader : AudioFormatReader α ρ χ) (hr : createReaderFor inputFile = some reader)
    (h0 : 0 ≤ reader.lengthInSamples) (hF : reader.lengthInSamples ≤ 2147483136)
    (hfuel : reader.lengthInSamples + 512 ≤ 512 * (fuel : Int)) :
    (process fuel createReaderFor inputFile (some p) fileInfo buffer).status = Status.returned 0
    ∧ ExactCover reader.lengthInSamples
        (blocksOf (process fuel createReaderFor inputFile (some p) fileInfo buffer).events) := by
  refine ⟨(process_safe fuel createReaderFor inputFile p fileInfo buffer hr h0 hF hfuel).1, ?_⟩
  rw [blocksOf_process_safe fuel createReaderFor inputFile p fileInfo buffer hr hF]
  exact exactCover_of_tiles
    (blockSchedule_tiles reader.lengthInSamples fuel 0 h0 (by omega))

/-- Example of `block_coverage`: 1024 frames give the two blocks (0, 512) and (512, 512). -/
theorem block_coverage_witness :
    blocksOf (renderOf 3 (stereoReader 1024)).events = [(0, 512), (512, 512)]
    ∧ (renderOf 3 (stereoReader 1024)).status = Status.returned 0
    ∧ ExactCover 1024 (blocksOf (renderOf 3 (stereoReader 1024)).events) :=
  ⟨by decide,
    block_coverage 3 (fun _ => some (stereoReader 1024)) "/in.wav" countingPlugin
      FileInfo.initial AudioBuffer.empty (stereoReader 1024) rfl (by decide) (by decide)
      (by decide)⟩

/-- At `F = 2^31 - 1` the loop evaluates `n += 512` with `n = 2^31 - 512`. -/
theorem overflow_after_last_block :
    (2147483136 : Int) ∈ incrementOperands (renderOf 4194304 longReader).events
    ∧ INT_MAX < 2147483136 + blockSize :=
  ⟨process_reaches_last_multiple (fun _ => some longReader) "/in.wav" countingPlugin
      FileInfo.initial AudioBuffer.empty rfl (by decide) (by decide), by decide⟩

/-- At `F = 2^31 - 1`, with the counter wrapping, `process` returns for no fuel. -/
theorem never_returns_at_int_max :
    ¬ ∃ fuel : Nat, (renderOf fuel longReader).status = Status.returned 0 := by
  rintro ⟨fuel, h⟩
  have := process_never_returns fuel (fun _ => some longReader) "/in.wav" countingPlugin
    FileInfo.initial AudioBuffer.empty longReader rfl rfl
  unfold renderOf at h
  rw [this] at h
  exact absurd h (by decide)

/-- C1 (the code at the failing input `F = 2^31 - 1`): after 4194304 loop bodies the
blocks handed to the plugin cover `[0, F)` exactly and the last one is (2^31 - 512, 511),
but the loop has not been left: the next step is `n += 512` at `n = 2^31 - 512`, whose
result exceeds `INT_MAX`. The C++ behaviour from there on is undefined; with the counter
wrapping, as in this embedding, the next block is built at offset -2^31 with length -1
and `process` never returns. -/
theorem block_coverage_overflow_at_int_max :
    ExactCover 2147483647 (blocksOf (renderOf 4194304 longReader).events)
    ∧ (blocksOf (renderOf 4194304 longReader).events).getLast? = some (2147483136, 511)
    ∧ (renderOf 4194304 longReader).status = Status.outOfFuel
    ∧ (2147483136 : Int) ∈ incrementOperands (renderOf 4194304 longReader).events
    ∧ INT_MAX < 2147483136 + blockSize
    ∧ ((-2147483648 : Int), (-1 : Int)) ∈ blocksOf (renderOf 4194305 longReader).events
    ∧ ¬ ∃ fuel : Nat, (renderOf fuel longReader).status = Status.returned 0 := by
  obtain ⟨a1, _, a3⟩ := process_at_overflow (fun _ => some longReader) "/in.wav"
    countingPlugin FileInfo.initial AudioBuffer.empty longReader rfl rfl
  obtain ⟨init, e, _⟩ := blockSchedule_tail 2147483647 (by decide) 4194304 0 (le_refl _)
    (by decide) (by decide) (by decide)
  have e1 : (2147483647 : Int) - 2147483647 % 512 = 2147483136 := by decide
  have e2 : (2147483647 : Int) % 512 = 511 := by decide
  rw [e1, e2] at e
  refine ⟨?_, ?_, a1, overflow_after_last_block.1, overflow_after_last_block.2, ?_,
    never_returns_at_int_max⟩
  · unfold renderOf
    rw [a3]
    exact exactCover_of_tiles (blockSchedule_tiles 2147483647 4194304 0 (by decide)
      (by decide))
  · unfold renderOf
    rw [a3, e]
    simp
  · unfold renderOf
    rw [process_wraps (fun _ => some longReader) "/in.wav" countingPlugin
      FileInfo.initial AudioBuffer.empty longReader rfl rfl]
    simp

/-- The tail block below the overflow: for every frame count `F` with
`0 ≤ F ≤ 2^31 - 512` and `F mod 512 ≠ 0`, `process` returns 0 and its blocks are full blocks of length 512
followed by one last block of length `F mod 512`; exactly one block has that length. -/
theorem tail_block (fuel : Nat)
    (createReaderFor : String → Option (AudioFormatReader α ρ χ)) (inputFile : String)
    (p : AudioPluginInstance σ α ρ) (fileInfo : FileInfo ρ χ) (buffer : AudioBuffer α)
    (reader : AudioFormatReader α ρ χ) (hr : createReaderFor inputFile = some reader)
    (h0 : 0 ≤ reader.lengthInSamples) (hF : reader.lengthInSamples ≤ 2147483136)
    (hrem : reader.lengthInSamples % 512 ≠ 0)
    (hfuel : reader.lengthInSamples + 512 ≤ 512 * (fuel : Int)) :
    (process fuel createReaderFor inputFile (some p) fileInfo buffer).status = Status.returned 0
    ∧ (∃ init : List (Int × Int),
        blocksOf (process fuel createReaderFor inputFile (some p) fileInfo buffer).events
          = init ++ [(reader.lengthInSamples - reader.lengthInSamples % 512,
              reader.lengthInSamples % 512)]
        ∧ ∀ blk ∈ init, blk.2 = 512)
    ∧ List.countP (fun blk : Int × Int => decide (blk.2 = reader.lengthInSamples % 512))
        (blocksOf (process fuel createReaderFor inputFile (some p) fileInfo buffer).events)
        = 1 := by
  refine ⟨(process_safe fuel createReaderFor inputFile p fileInfo buffer hr h0 hF hfuel).1, ?_⟩
  rw [blocksOf_process_safe fuel createReaderFor inputFile p fileInfo buffer hr hF]
  obtain ⟨init, e, hfull⟩ := blockSchedule_tail reader.lengthInSamples hrem fuel 0
    (le_refl _) (by norm_num) (by omega) (by omega)
  refine ⟨⟨init, e, hfull⟩, ?_⟩
  rw [e, List.countP_append]
  have hz : List.countP (fun blk : Int × Int => decide (blk.2 = reader.lengthInSamples % 512))
      init = 0 := by
    rw [List.countP_eq_zero]
    intro blk hb
    have := hfull blk hb
    simp only [decide_eq_true_eq]
    omega
  rw [hz]
  simp

/-- Example of `tail_block`: 1025 frames give blocks of lengths 512, 512, 1. -/
theorem tail_block_witness :
    blocksOf (renderOf 4 (stereoReader 1025)).events = [(0, 512), (512, 512), (1024, 1)]
    ∧ (renderOf 4 (stereoReader 1025)).status = Status.returned 0
    ∧ (∃ init : List (Int × Int),
        blocksOf (renderOf 4 (stereoReader 1025)).events
          = init ++ [((1025 : Int) - 1025 % 512, (1025 : Int) % 512)]
        ∧ ∀ blk ∈ init, blk.2 = 512)
    ∧ List.countP (fun blk : Int × Int => decide (blk.2 = (1025 : Int) % 512))
        (blocksOf (renderOf 4 (stereoReader 1025)).events) = 1 :=
  ⟨by decide,
    tail_block 4 (fun _ => some (stereoReader 1025)) "/in.wav" countingPlugin
      FileInfo.initial AudioBuffer.empty (stereoReader 1025) rfl (by decide) (by decide)
      (by decide) (by decide)⟩

/-- C2 (the code at the failing input `F = 2^31 - 1`, where `F mod 512 = 511`): after
4194304 loop bodies the blocks are full blocks followed by the block (2^31 - 512, 511),
as the claim says, but the loop has not been left: the next step is `n += 512` at
`n = 2^31 - 512`, whose result exceeds `INT_MAX`. The C++ behaviour from there on is
undefined; with the counter wrapping, as in this embedding, the block of length 511 is
followed by a block at offset -2^31 with length -1 and `process` never returns. -/
theorem tail_block_overflow_at_int_max :
    (2147483647 : Int) % 512 = 511
    ∧ (∃ init : List (Int × Int),
        blocksOf (renderOf 4194304 longReader).events = init ++ [(2147483136, 511)]
        ∧ ∀ blk ∈ init, blk.2 = 512)
    ∧ (renderOf 4194304 longReader).status = Status.outOfFuel
    ∧ INT_MAX < 2147483136 + blockSize
    ∧ (∃ earlier : List (Int × Int),
        blocksOf (renderOf 4194305 longReader).events
          = earlier ++ [(2147483136, 511), (-2147483648, -1)])
    ∧ ¬ ∃ fuel : Nat, (renderOf fuel longReader).status = Status.returned 0 := by
  obtain ⟨a1, _, a3⟩ := process_at_overflow (fun _ => some longReader) "/in.wav"
    countingPlugin FileInfo.initial AudioBuffer.empty longReader rfl rfl
  obtain ⟨init, e, hfull⟩ := blockSchedule_tail 2147483647 (by decide) 4194304 0 (le_refl _)
    (by decide) (by decide) (by decide)
  have e1 : (2147483647 : Int) - 2147483647 % 512 = 2147483136 := by decide
  have e2 : (2147483647 : Int) % 512 = 511 := by decide
  rw [e1, e2] at e
  refine ⟨e2, ⟨init, ?_, hfull⟩, a1, by decide, ?_, never_returns_at_int_max⟩
  · unfold renderOf
    rw [a3, e]
  · exact ⟨_, process_wraps (fun _ => some longReader) "/in.wav" countingPlugin
      FileInfo.initial AudioBuffer.empty longReader rfl rfl⟩

/-- The lifecycle below the overflow: for every frame count `F` with
`0 ≤ F ≤ 2^31 - 512` for which the reader is created, `process` returns 0 and the calls it makes on the plugin are exactly
`setNonRealtime (true)`, one `prepareToPlay (sampleRate, 512)`, the `processBlock` calls
(none when `F = 0`), then one `releaseResources`. -/
theorem lifecycle_order (fuel : Nat)
    (createReaderFor : String → Option (AudioFormatReader α ρ χ)) (inputFile : String)
    (p : AudioPluginInstance σ α ρ) (fileInfo : FileInfo ρ χ) (buffer : AudioBuffer α)
    (reader : AudioFormatReader α ρ χ) (hr : createReaderFor inputFile = some reader)
    (h0 : 0 ≤ reader.lengthInSamples) (hF : reader.lengthInSamples ≤ 2147483136)
    (hfuel : reader.lengthInSamples + 512 ≤ 512 * (fuel : Int)) :
    (process fuel createReaderFor inputFile (some p) fileInfo buffer).status = Status.returned 0
    ∧ (process fuel createReaderFor inputFile (some p) fileInfo buffer).events
      = [Event.setNonRealtime true, Event.prepareToPlay reader.sampleRate 512]
        ++ (blocksOf (process fuel createReaderFor inputFile (some p) fileInfo buffer).events).map
            (blockEvent reader.numChannels)
        ++ [Event.releaseResources]
    ∧ (reader.lengthInSamples = 0 →
        (process fuel createReaderFor inputFile (some p) fileInfo buffer).events
          = [Event.setNonRealtime true, Event.prepareToPlay reader.sampleRate 512,
              Event.releaseResources]) := by
  obtain ⟨e1, e2⟩ := process_safe fuel createReaderFor inputFile p fileInfo buffer hr h0 hF hfuel
  refine ⟨e1, ?_, ?_⟩
  · rw [blocksOf_process_safe fuel createReaderFor inputFile p fileInfo buffer hr hF]
    exact e2
  · intro hz
    rw [e2, blockSchedule_of_le reader.lengthInSamples fuel (by omega)]
    rfl

/-- Example of `lifecycle_order`: the whole log of a render of 1025 frames, and of an
empty file. -/
theorem lifecycle_order_witness :
    (renderOf 4 (stereoReader 1025)).events
      = [Event.setNonRealtime true, Event.prepareToPlay 48000 512,
          Event.processBlock 2 0 512, Event.processBlock 2 512 512,
          Event.processBlock 2 1024 1, Event.releaseResources]
    ∧ (renderOf 4 (stereoReader 1025)).events
      = [Event.setNonRealtime true, Event.prepareToPlay 48000 512]
        ++ (blocksOf (renderOf 4 (stereoReader 1025)).events).map (blockEvent 2)
        ++ [Event.releaseResources]
    ∧ (renderOf 1 (stereoReader 0)).events
      = [Event.setNonRealtime true, Event.prepareToPlay 48000 512, Event.releaseResources] :=
  ⟨by decide,
    (lifecycle_order 4 (fun _ => some (stereoReader 1025)) "/in.wav" countingPlugin
      FileInfo.initial AudioBuffer.empty (stereoReader 1025) rfl (by decide) (by decide)
      (by decide)).2.1,
    (lifecycle_order 1 (fun _ => some (stereoReader 0)) "/in.wav" countingPlugin
      FileInfo.initial AudioBuffer.empty (stereoReader 0) rfl (by decide) (by decide)
      (by decide)).2.2 rfl⟩

/-- C3 (the code at the failing input `F = 2^31 - 1`): after 4194304 loop bodies the
calls made on the plugin are `setNonRealtime (true)`, one `prepareToPlay (8000, 512)` and
the `processBlock` calls, the last one for the block (2^31 - 512, 511); no
`releaseResources` yet, and the next step is `n += 512` at `n = 2^31 - 512`, whose result
exceeds `INT_MAX`. The C++ behaviour from there on is undefined; with the counter
wrapping, as in this embedding, the loop is never left and `releaseResources` is never
called. -/
theorem lifecycle_order_overflow_at_int_max :
    (renderOf 4194304 longReader).events
      = [Event.setNonRealtime true, Event.prepareToPlay 8000 512]
        ++ (blocksOf (renderOf 4194304 longReader).events).map (blockEvent 1)
    ∧ (blocksOf (renderOf 4194304 longReader).events).getLast? = some (2147483136, 511)
    ∧ (renderOf 4194304 longReader).status = Status.outOfFuel
    ∧ INT_MAX < 2147483136 + blockSize
    ∧ (¬ ∃ fuel : Nat, (renderOf fuel longReader).status = Status.returned 0)
    ∧ ¬ ∃ fuel : Nat, Event.releaseResources ∈ (renderOf fuel longReader).events := by
  obtain ⟨a1, a2, a3⟩ := process_at_overflow (fun _ => some longReader) "/in.wav"
    countingPlugin FileInfo.initial AudioBuffer.empty longReader rfl rfl
  obtain ⟨init, e, _⟩ := blockSchedule_tail 2147483647 (by decide) 4194304 0 (le_refl _)
    (by decide) (by decide) (by decide)
  have e1 : (2147483647 : Int) - 2147483647 % 512 = 2147483136 := by decide
  have e2 : (2147483647 : Int) % 512 = 511 := by decide
  rw [e1, e2] at e
  refine ⟨?_, ?_, a1, by decide, never_returns_at_int_max, ?_⟩
  · unfold renderOf
    rw [a3]
    exact a2
  · unfold renderOf
    rw [a3, e]
    simp
  · rintro ⟨fuel, h⟩
    exact process_never_releases fuel (fun _ => some longReader) "/in.wav" countingPlugin
      FileInfo.initial AudioBuffer.empty longReader rfl rfl h

/-- C9 (amended): for every frame count `F` with `1 ≤ F < 512`, the render loop produces
exactly one block, at offset 0 and of length `F`. -/
theorem short_file_single_block (fuel : Nat)
    (createReaderFor : String → Option (AudioFormatReader α ρ χ)) (inputFile : String)
    (p : AudioPluginInstance σ α ρ) (fileInfo : FileInfo ρ χ) (buffer : AudioBuffer α)
    (reader : AudioFormatReader α ρ χ) (hr : createReaderFor inputFile = some reader)
    (h1 : 1 ≤ reader.lengthInSamples) (h2 : reader.lengthInSamples < 512)
    (hfuel : 2 ≤ fuel) :
    (process fuel createReaderFor inputFile (some p) fileInfo buffer).status = Status.returned 0
    ∧ blocksOf (process fuel createReaderFor inputFile (some p) fileInfo buffer).events
      = [(0, reader.lengthInSamples)] := by
  refine ⟨(process_safe fuel createReaderFor inputFile p fileInfo buffer hr (by omega)
    (by omega) (by omega)).1, ?_⟩
  rw [blocksOf_process_safe fuel createReaderFor inputFile p fileInfo buffer hr (by omega)]
  obtain ⟨k, rfl⟩ : ∃ k, fuel = k + 1 := ⟨fuel - 1, by omega⟩
  have hpos : (0 : Int) < reader.lengthInSamples := by omega
  have hmin : min 512 (reader.lengthInSamples - 0) = reader.lengthInSamples := by omega
  simp only [blockSchedule, if_pos hpos, hmin]
  rw [blockSchedule_of_le reader.lengthInSamples k (by omega)]

/-- Witness of C9: 100 frames give exactly one block of length 100. -/
theorem short_file_single_block_witness :
    blocksOf (renderOf 2 (stereoReader 100)).events = [(0, 100)] :=
  (short_file_single_block 2 (fun _ => some (stereoReader 100)) "/in.wav" countingPlugin
    FileInfo.initial AudioBuffer.empty (stereoReader 100) rfl (by decide) (by decide)
    (by decide)).2

/-- Counterexample to C9 as stated: `F = 0` is smaller than 512, the render pass returns
0, and it produces no block at all. -/
theorem short_file_single_block_fails_at_zero :
    (0 : Int) < 512
    ∧ (renderOf 1 (stereoReader 0)).status = Status.returned 0
    ∧ blocksOf (renderOf 1 (stereoReader 0)).events = []
    ∧ ¬ ∃ fuel : Nat, (blocksOf (renderOf fuel (stereoReader 0)).events).length = 1 := by
  refine ⟨by decide, by decide, by decide, ?_⟩
  rintro ⟨fuel, h⟩
  unfold renderOf at h
  rw [blocksOf_process_safe fuel (fun _ => some (stereoReader 0)) "/in.wav" countingPlugin
    FileInfo.initial AudioBuffer.empty
    (show (fun _ => some (stereoReader 0)) "/in.wav" = some (stereoReader 0) from rfl)
    (by decide)] at h
  have e : blockSchedule (stereoReader 0).lengthInSamples fuel 0 = [] :=
    blockSchedule_of_le _ fuel (le_refl _)
  rw [e] at h
  simp at h

/-- C10: with the loop counter a 32-bit `int`, for every frame count `F` with
`0 ≤ F ≤ 2^31 - 1`: every evaluation of `n += 512` stays within `INT_MAX` if and only if
`F ≤ 2^31 - 512`; for such `F` the loop ends after `ceil (F / 512)` iterations with every
block length in `[1, 512]`; and at `F = 2^31 - 1` an increment overflows. -/
theorem loop_counter_width
    (createReaderFor : String → Option (AudioFormatReader α ρ χ)) (inputFile : String)
    (p : AudioPluginInstance σ α ρ) (fileInfo : FileInfo ρ χ) (buffer : AudioBuffer α)
    (reader : AudioFormatReader α ρ χ) (hr : createReaderFor inputFile = some reader)
    (h0 : 0 ≤ reader.lengthInSamples) (hmax : reader.lengthInSamples ≤ INT_MAX) :
    ((∀ fuel : Nat, ∀ n ∈ incrementOperands
          (process fuel createReaderFor inputFile (some p) fileInfo buffer).events,
        n + blockSize ≤ INT_MAX) ↔ reader.lengthInSamples ≤ 2147483136)
    ∧ (reader.lengthInSamples ≤ 2147483136 → ∀ fuel : Nat,
        reader.lengthInSamples + 512 ≤ 512 * (fuel : Int) →
        (process fuel createReaderFor inputFile (some p) fileInfo buffer).status
          = Status.returned 0
        ∧ ((blocksOf (process fuel createReaderFor inputFile (some p) fileInfo
            buffer).events).length : Int) = (reader.lengthInSamples + 511) / 512
        ∧ ∀ blk ∈ blocksOf (process fuel createReaderFor inputFile (some p) fileInfo
            buffer).events, 1 ≤ blk.2 ∧ blk.2 ≤ 512)
    ∧ (reader.lengthInSamples = INT_MAX → ∃ fuel : Nat, ∃ n ∈ incrementOperands
          (process fuel createReaderFor inputFile (some p) fileInfo buffer).events,
        INT_MAX < n + blockSize) := by
  unfold INT_MAX at hmax
  have hover : 2147483136 < reader.lengthInSamples → ∃ fuel : Nat, ∃ n ∈ incrementOperands
      (process fuel createReaderFor inputFile (some p) fileInfo buffer).events,
      INT_MAX < n + blockSize := fun hlt =>
    ⟨4194304, 2147483136,
      process_reaches_last_multiple createReaderFor inputFile p fileInfo buffer hr hlt hmax,
      by decide⟩
  refine ⟨⟨?_, ?_⟩, ?_, ?_⟩
  · intro h
    by_contra hlt
    obtain ⟨fuel, n, hn, hbad⟩ := hover (by omega)
    have := h fuel n hn
    omega
  · intro hF fuel n hn
    unfold incrementOperands at hn
    rw [blocksOf_process_safe fuel createReaderFor inputFile p fileInfo buffer hr hF] at hn
    obtain ⟨blk, hb, rfl⟩ := List.mem_map.mp hn
    have := blockSchedule_mem reader.lengthInSamples fuel 0 blk hb
    unfold blockSize INT_MAX
    omega
  · intro hF fuel hfuel
    refine ⟨(process_safe fuel createReaderFor inputFile p fileInfo buffer hr h0 hF hfuel).1,
      ?_, ?_⟩
    · rw [blocksOf_process_safe fuel createReaderFor inputFile p fileInfo buffer hr hF,
        blockSchedule_length reader.lengthInSamples fuel 0 (by omega)]
      omega
    · intro blk hb
      rw [blocksOf_process_safe fuel createReaderFor inputFile p fileInfo buffer hr hF] at hb
      have := blockSchedule_mem reader.lengthInSamples fuel 0 blk hb
      omega
  · intro hF
    unfold INT_MAX at hF
    exact hover (by omega)

/-- Witness of C10: 1025 frames are inside the range, and the loop ends after 3
iterations. -/
theorem loop_counter_width_witness :
    ((blocksOf (renderOf 4 (stereoReader 1025)).events).length : Int) = (1025 + 511) / 512
    ∧ ∀ fuel : Nat, ∀ n ∈ incrementOperands (renderOf fuel (stereoReader 1025)).events,
        n + blockSize ≤ INT_MAX :=
  ⟨((loop_counter_width (fun _ => some (stereoReader 1025)) "/in.wav" countingPlugin
      FileInfo.initial AudioBuffer.empty (stereoReader 1025) rfl (by decide)
      (by decide)).2.1 (by decide) 4 (by decide)).2.1,
    (loop_counter_width (fun _ => some (stereoReader 1025)) "/in.wav" countingPlugin
      FileInfo.initial AudioBuffer.empty (stereoReader 1025) rfl (by decide)
      (by decide)).1.mpr (by decide)⟩

end Claims

end PluginRunner

namespace PluginRunner

/-! ## The pipeline (claims C5, C6, C7, C8) -/

section Pipeline
variable {σ α ρ χ : Type}

theorem process_no_reader (fuel : Nat)
    (createReaderFor : String → Option (AudioFormatReader α ρ χ)) (inputFile : String)
    (plugin : Option (AudioPluginInstance σ α ρ)) (fileInfo : FileInfo ρ χ)
    (buffer : AudioBuffer α) (hr : createReaderFor inputFile = none) :
    process fuel createReaderFor inputFile plugin fileInfo buffer
      = { status := Status.returned 1, fileInfo := fileInfo, buffer := buffer, plugin := plugin
          events := [Event.cout "Error: unable to read input file"] } := by
  simp [process, hr]

theorem process_null_plugin (fuel : Nat)
    (createReaderFor : String → Option (AudioFormatReader α ρ χ)) (inputFile : String)
    (fileInfo : FileInfo ρ χ) (buffer : AudioBuffer α) {reader : AudioFormatReader α ρ χ}
    (hr : createReaderFor inputFile = some reader) :
    process fuel createReaderFor inputFile (none : Option (AudioPluginInstance σ α ρ))
        fileInfo buffer
      = { status := Status.nullDereference
          fileInfo := { sampleRate := reader.sampleRate, channelSet := reader.channelLayout
                        bitsPerSample := reader.bitsPerSample }
          buffer := reader.readBuffer, plugin := none, events := [] } := by
  simp [process, hr]

theorem process_fileInfo (fuel : Nat)
    (createReaderFor : String → Option (AudioFormatReader α ρ χ)) (inputFile : String)
    (plugin : Option (AudioPluginInstance σ α ρ)) (fileInfo : FileInfo ρ χ)
    (buffer : AudioBuffer α) {reader : AudioFormatReader α ρ χ}
    (hr : createReaderFor inputFile = some reader) :
    (process fuel createReaderFor inputFile plugin fileInfo buffer).fileInfo
      = { sampleRate := reader.sampleRate, channelSet := reader.channelLayout
          bitsPerSample := reader.bitsPerSample } := by
  cases plugin with
  | none => rw [process_null_plugin fuel createReaderFor inputFile fileInfo buffer hr]
  | some p =>
    cases hx : (renderLoop p reader.numChannels reader.lengthInSamples fuel 0
        (prepare p reader)).1 <;> simp [process, hr, hx]

/-- Everything `process` does is a message or a call on the plugin. -/
theorem process_events_kind (fuel : Nat)
    (createReaderFor : String → Option (AudioFormatReader α ρ χ)) (inputFile : String)
    (plugin : Option (AudioPluginInstance σ α ρ)) (fileInfo : FileInfo ρ χ)
    (buffer : AudioBuffer α) :
    ∀ e ∈ (process fuel createReaderFor inputFile plugin fileInfo buffer).events,
      e.isCout = true ∨ e.isPluginCall = true := by
  intro e he
  cases hr : createReaderFor inputFile with
  | none =>
    rw [process_no_reader fuel createReaderFor inputFile plugin fileInfo buffer hr] at he
    simp only [List.mem_singleton] at he
    subst he; exact Or.inl rfl
  | some reader =>
    cases plugin with
    | none =>
      rw [process_null_plugin fuel createReaderFor inputFile fileInfo buffer hr] at he
      simp at he
    | some p =>
      obtain ⟨bs, hbs⟩ := renderLoop_events_shape p reader.numChannels reader.lengthInSamples
        fuel 0 (prepare p reader)
      have key : ∀ e ∈ (renderLoop p reader.numChannels reader.lengthInSamples fuel 0
          (prepare p reader)).2.events, e.isPluginCall = true := by
        intro e he
        rw [hbs] at he
        simp only [prepare, List.mem_append, List.mem_cons, List.mem_map,
          List.mem_singleton, List.not_mem_nil, or_false] at he
        rcases he with (he | he) | ⟨blk, _, he⟩
        · subst he; rfl
        · subst he; rfl
        · subst he; rfl
      cases hx : (renderLoop p reader.numChannels reader.lengthInSamples fuel 0
          (prepare p reader)).1 with
      | true =>
        rw [(process_of_exit fuel createReaderFor inputFile p fileInfo buffer hr hx).2.1] at he
        simp only [List.mem_append, List.mem_singleton] at he
        rcases he with he | he
        · exact Or.inr (key e he)
        · subst he; exact Or.inr rfl
      | false =>
        rw [(process_of_no_exit fuel createReaderFor inputFile p fileInfo buffer hr hx).2] at he
        exact Or.inr (key e he)

/-- When `process` returns 0 a reader was created and `fileInfo` holds its metadata. -/
theorem process_returned_zero (fuel : Nat)
    (createReaderFor : String → Option (AudioFormatReader α ρ χ)) (inputFile : String)
    (plugin : Option (AudioPluginInstance σ α ρ)) (fileInfo : FileInfo ρ χ)
    (buffer : AudioBuffer α)
    (h : (process fuel createReaderFor inputFile plugin fileInfo buffer).status
      = Status.returned 0) :
    ∃ reader, createReaderFor inputFile = some reader
      ∧ (process fuel createReaderFor inputFile plugin fileInfo buffer).fileInfo
        = { sampleRate := reader.sampleRate, channelSet := reader.channelLayout
            bitsPerSample := reader.bitsPerSample } := by
  cases hr : createReaderFor inputFile with
  | none =>
    rw [process_no_reader fuel createReaderFor inputFile plugin fileInfo buffer hr] at h
    simp at h
  | some reader =>
    exact ⟨reader, rfl, process_fileInfo fuel createReaderFor inputFile plugin fileInfo buffer hr⟩

theorem getPlugin_events_cout (w : World σ α ρ χ)
    (plugin : Option (AudioPluginInstance σ α ρ)) (file : String) :
    ∀ e ∈ (getPlugin w plugin file).events, e.isCout = true := by
  intro e he
  unfold getPlugin at he
  split at he
  · simp at he; subst he; rfl
  · simp at he

theorem checkFileHasExtention_events_cout (w : World σ α ρ χ) (file ext : String) :
    ∀ e ∈ (checkFileHasExtention w file ext).events, e.isCout = true := by
  intro e he
  unfold checkFileHasExtention at he
  split at he
  · simp at he; subst he; rfl
  · simp at he

theorem checkInputFile_events_cout (w : World σ α ρ χ) (file : String) :
    ∀ e ∈ (checkInputFile w file).events, e.isCout = true := by
  intro e he
  unfold checkInputFile at he
  split at he
  · simp at he; subst he; rfl
  · exact checkFileHasExtention_events_cout w file ".wav" e he

end Pipeline

end PluginRunner

namespace PluginRunner

section MainCases
variable {σ α ρ χ : Type}

theorem getPlugin_ret (w : World σ α ρ χ) (plugin : Option (AudioPluginInstance σ α ρ))
    (file : String) : (getPlugin w plugin file).ret = 0 ∨ (getPlugin w plugin file).ret = 1 := by
  unfold getPlugin
  split
  · exact Or.inr rfl
  · exact Or.inl rfl

theorem checkFileHasExtention_ret (w : World σ α ρ χ) (file ext : String) :
    (checkFileHasExtention w file ext).ret = 0 ∨ (checkFileHasExtention w file ext).ret = 1 := by
  unfold checkFileHasExtention
  split
  · exact Or.inr rfl
  · exact Or.inl rfl

theorem checkInputFile_ret (w : World σ α ρ χ) (file : String) :
    (checkInputFile w file).ret = 0 ∨ (checkInputFile w file).ret = 1 := by
  unfold checkInputFile
  split
  · exact Or.inr rfl
  · exact checkFileHasExtention_ret w file ".wav"

/-- The two ways `main` can run: it returns 1 before the output file is created, having
only printed messages; or it creates the output file and calls `process`, and calls
`writeToOutputFile` exactly when `process` returned 0. -/
theorem main_cases [OfScientific ρ] [EmptyCollection χ] (fuel : Nat) (w : World σ α ρ χ)
    (argv : List String) :
    ((main fuel w argv).status = Status.returned 1
      ∧ (main fuel w argv).fileInfo = FileInfo.initial
      ∧ ∀ e ∈ (main fuel w argv).events, e.isCout = true)
    ∨ ∃ pre : List (Event α ρ χ),
        (∀ e ∈ pre, e.isCout = true
          ∨ e = Event.createFile (outputFile w argv (resolvePath w (argv.getD 2 "")))
          ∨ e = Event.enterProcess (resolvePath w (argv.getD 2 "")))
        ∧ (main fuel w argv).fileInfo
          = (process fuel w.createReaderFor (resolvePath w (argv.getD 2 ""))
              (getPlugin w none (argv.getD 1 "")).plugin FileInfo.initial
              AudioBuffer.empty).fileInfo
        ∧ (((process fuel w.createReaderFor (resolvePath w (argv.getD 2 ""))
              (getPlugin w none (argv.getD 1 "")).plugin FileInfo.initial
              AudioBuffer.empty).status = Status.returned 0
            ∧ (main fuel w argv).status
              = (writeToOutputFile w (outputFile w argv (resolvePath w (argv.getD 2 "")))
                  (process fuel w.createReaderFor (resolvePath w (argv.getD 2 ""))
                    (getPlugin w none (argv.getD 1 "")).plugin FileInfo.initial
                    AudioBuffer.empty).fileInfo
                  (process fuel w.createReaderFor (resolvePath w (argv.getD 2 ""))
                    (getPlugin w none (argv.getD 1 "")).plugin FileInfo.initial
                    AudioBuffer.empty).buffer).status
            ∧ (main fuel w argv).events
              = pre ++ (process fuel w.createReaderFor (resolvePath w (argv.getD 2 ""))
                  (getPlugin w none (argv.getD 1 "")).plugin FileInfo.initial
                  AudioBuffer.empty).events
                ++ [Event.enterWriteToOutputFile
                    (outputFile w argv (resolvePath w (argv.getD 2 "")))]
                ++ (writeToOutputFile w (outputFile w argv (resolvePath w (argv.getD 2 "")))
                  (process fuel w.createReaderFor (resolvePath w (argv.getD 2 ""))
                    (getPlugin w none (argv.getD 1 "")).plugin FileInfo.initial
                    AudioBuffer.empty).fileInfo
                  (process fuel w.createReaderFor (resolvePath w (argv.getD 2 ""))
                    (getPlugin w none (argv.getD 1 "")).plugin FileInfo.initial
                    AudioBuffer.empty).buffer).events)
          ∨ ((process fuel w.createReaderFor (resolvePath w (argv.getD 2 ""))
              (getPlugin w none (argv.getD 1 "")).plugin FileInfo.initial
              AudioBuffer.empty).status ≠ Status.returned 0
            ∧ (main fuel w argv).status
              = (process fuel w.createReaderFor (resolvePath w (argv.getD 2 ""))
                  (getPlugin w none (argv.getD 1 "")).plugin FileInfo.initial
                  AudioBuffer.empty).status
            ∧ (main fuel w argv).events
              = pre ++ (process fuel w.createReaderFor (resolvePath w (argv.getD 2 ""))
                  (getPlugin w none (argv.getD 1 "")).plugin FileInfo.initial
                  AudioBuffer.empty).events)) := by
  unfold main
  by_cases hargc : ((argv.length : Int) < 3 ∨ (argv.length : Int) > 4)
  · left
    simp only [if_pos hargc]
    refine ⟨trivial, trivial, ?_⟩
    intro e he
    simp only [List.mem_singleton] at he
    subst he; rfl
  simp only [if_neg hargc]
  by_cases hg : (getPlugin w none (argv.getD 1 "")).ret ≠ 0
  · left
    simp only [if_pos hg]
    refine ⟨?_, trivial, getPlugin_events_cout w none _⟩
    rcases getPlugin_ret w none (argv.getD 1 "") with h | h
    · exact absurd h hg
    · simp only [h]
  simp only [if_neg hg]
  by_cases hc : (checkInputFile w (resolvePath w (argv.getD 2 ""))).ret ≠ 0
  · left
    simp only [if_pos hc]
    refine ⟨?_, trivial, ?_⟩
    · rcases checkInputFile_ret w (resolvePath w (argv.getD 2 "")) with h | h
      · exact absurd h hc
      · simp only [h]
    · intro e he
      simp only [List.mem_append] at he
      rcases he with he | he
      · exact getPlugin_events_cout w none _ e he
      · exact checkInputFile_events_cout w _ e he
  simp only [if_neg hc]
  have hxf : ((if (argv.length : Int) = 4 then
        checkFileHasExtention w (resolvePath w (argv.getD 3 "")) ".wav"
      else ({ ret := 0, events := [] } : CheckResult α ρ χ)).ret = 0
      ∨ (if (argv.length : Int) = 4 then
        checkFileHasExtention w (resolvePath w (argv.getD 3 "")) ".wav"
      else ({ ret := 0, events := [] } : CheckResult α ρ χ)).ret = 1)
      ∧ ∀ e ∈ (if (argv.length : Int) = 4 then
        checkFileHasExtention w (resolvePath w (argv.getD 3 "")) ".wav"
      else ({ ret := 0, events := [] } : CheckResult α ρ χ)).events, e.isCout = true := by
    split
    · exact ⟨checkFileHasExtention_ret w _ _, checkFileHasExtention_events_cout w _ _⟩
    · exact ⟨Or.inl rfl, fun e he => by simp at he⟩
  generalize (if (argv.length : Int) = 4 then
        checkFileHasExtention w (resolvePath w (argv.getD 3 "")) ".wav"
      else ({ ret := 0, events := [] } : CheckResult α ρ χ)) = x at hxf ⊢
  generalize process fuel w.createReaderFor (resolvePath w (argv.getD 2 ""))
    (getPlugin w none (argv.getD 1 "")).plugin FileInfo.initial AudioBuffer.empty = r
  by_cases hxr : x.ret ≠ 0
  · left
    simp only [if_pos hxr]
    refine ⟨?_, trivial, ?_⟩
    · rcases hxf.1 with h | h
      · exact absurd h hxr
      · simp only [h]
    · intro e he
      simp only [List.mem_append] at he
      rcases he with (he | he) | he
      · exact getPlugin_events_cout w none _ e he
      · exact checkInputFile_events_cout w _ e he
      · exact hxf.2 e he
  simp only [if_neg hxr]
  right
  refine ⟨(getPlugin w none (argv.getD 1 "")).events
    ++ (checkInputFile w (resolvePath w (argv.getD 2 ""))).events ++ x.events
    ++ [Event.createFile (outputFile w argv (resolvePath w (argv.getD 2 ""))),
        Event.enterProcess (resolvePath w (argv.getD 2 ""))], ?_, ?_, ?_⟩
  · intro e he
    simp only [List.mem_append, List.mem_cons, List.mem_singleton, List.not_mem_nil,
      or_false] at he
    rcases he with ((he | he) | he) | he | he
    · exact Or.inl (getPlugin_events_cout w none _ e he)
    · exact Or.inl (checkInputFile_events_cout w _ e he)
    · exact Or.inl (hxf.2 e he)
    · exact Or.inr (Or.inl he)
    · exact Or.inr (Or.inr he)
  · split <;> rfl
  · split
    · rename_i hs
      exact Or.inl ⟨hs, rfl, rfl⟩
    · rename_i hs
      exact Or.inr ⟨fun h => hs h, rfl, rfl⟩

end MainCases

end PluginRunner

namespace PluginRunner

section PipelineClaims
variable {σ α ρ χ : Type}

theorem event_not_write_of_cout_or_plugin (e : Event α ρ χ)
    (h : e.isCout = true ∨ e.isPluginCall = true) : e.isWrite = false := by
  cases e <;> simp_all [Event.isCout, Event.isPluginCall, Event.isWrite]

theorem event_not_write_of_pre (e : Event α ρ χ) (f g : String)
    (h : e.isCout = true ∨ e = Event.createFile f ∨ e = Event.enterProcess g) :
    e.isWrite = false := by
  rcases h with h | h | h
  · cases e <;> simp_all [Event.isCout, Event.isWrite]
  · subst h; rfl
  · subst h; rfl

theorem event_not_plugin_of_pre (e : Event α ρ χ) (f g : String)
    (h : e.isCout = true ∨ e = Event.createFile f ∨ e = Event.enterProcess g) :
    e.isPluginCall = false := by
  rcases h with h | h | h
  · cases e <;> simp_all [Event.isCout, Event.isPluginCall]
  · subst h; rfl
  · subst h; rfl

/-- C5: whenever `main` calls `writeToOutputFile`, `process` had created a reader for the
input file, and the sample rate, channel layout and bits per sample passed to the writer
are exactly the values of that reader, whatever plugin the world supplies. -/
theorem metadata_fidelity [OfScientific ρ] [EmptyCollection χ] (fuel : Nat)
    (w : World σ α ρ χ) (argv : List String) (file : String)
    (h : Event.enterWriteToOutputFile file ∈ (main fuel w argv).events) :
    ∃ reader, w.createReaderFor (resolvePath w (argv.getD 2 "")) = some reader
      ∧ Event.createWriterFor file reader.sampleRate reader.channelLayout reader.bitsPerSample
          ∈ (main fuel w argv).events
      ∧ ∀ (f : String) (sr : ρ) (cs : χ) (bits : Int),
          Event.createWriterFor f sr cs bits ∈ (main fuel w argv).events →
          sr = reader.sampleRate ∧ cs = reader.channelLayout ∧ bits = reader.bitsPerSample := by
  rcases main_cases fuel w argv with ⟨_, _, hc⟩ | ⟨pre, hpre, _, hrun⟩
  · have := hc _ h
    simp [Event.isCout] at this
  · have hprew : ∀ e ∈ pre, e.isWrite = false := fun e he =>
      event_not_write_of_pre e _ _ (hpre e he)
    have hprocw := fun e he => event_not_write_of_cout_or_plugin e
      (process_events_kind fuel w.createReaderFor (resolvePath w (argv.getD 2 ""))
        (getPlugin w none (argv.getD 1 "")).plugin FileInfo.initial AudioBuffer.empty e he)
    rcases hrun with ⟨hs, _, hev⟩ | ⟨_, _, hev⟩
    · obtain ⟨reader, hr, hinfo⟩ := process_returned_zero fuel w.createReaderFor _ _ _ _ hs
      refine ⟨reader, hr, ?_, ?_⟩
      · rw [hev] at h ⊢
        simp only [List.mem_append, List.mem_singleton] at h
        rcases h with ((h | h) | h) | h
        · have := hprew _ h; simp [Event.isWrite] at this
        · have := hprocw _ h; simp [Event.isWrite] at this
        · injection h with h
          subst h
          rw [hinfo]
          unfold writeToOutputFile
          split <;> simp
        · exfalso
          unfold writeToOutputFile at h
          split at h <;> simp at h
      · intro f sr cs bits hm
        rw [hev] at hm
        simp only [List.mem_append, List.mem_singleton] at hm
        rcases hm with ((hm | hm) | hm) | hm
        · have := hprew _ hm; simp [Event.isWrite] at this
        · have := hprocw _ hm; simp [Event.isWrite] at this
        · cases hm
        · rw [hinfo] at hm
          unfold writeToOutputFile at hm
          split at hm <;> simp at hm <;> exact ⟨hm.2.1, hm.2.2.1, hm.2.2.2⟩
    · rw [hev] at h
      simp only [List.mem_append] at h
      rcases h with h | h
      · have := hprew _ h; simp [Event.isWrite] at this
      · have := hprocw _ h; simp [Event.isWrite] at this

/-- Witness of C5: rendering `/in.wav` through `/gain.vst3` creates the writer with the
48 kHz, stereo, 24 bit metadata of the input. -/
theorem metadata_fidelity_witness :
    (main 4 studio ["PluginRunner", "/gain.vst3", "/in.wav"]).status = Status.returned 0
    ∧ ∃ reader, studio.createReaderFor
          (resolvePath studio (["PluginRunner", "/gain.vst3", "/in.wav"].getD 2 ""))
          = some reader
      ∧ Event.createWriterFor "/out/in.wav-out.wav" reader.sampleRate reader.channelLayout
          reader.bitsPerSample
          ∈ (main 4 studio ["PluginRunner", "/gain.vst3", "/in.wav"]).events
      ∧ ∀ (f : String) (sr : Rat) (cs : List Nat) (bits : Int),
          Event.createWriterFor f sr cs bits
            ∈ (main 4 studio ["PluginRunner", "/gain.vst3", "/in.wav"]).events →
          sr = reader.sampleRate ∧ cs = reader.channelLayout ∧ bits = reader.bitsPerSample :=
  ⟨by decide,
    metadata_fidelity 4 studio ["PluginRunner", "/gain.vst3", "/in.wav"] "/out/in.wav-out.wav"
      (by decide)⟩

/-- C6: for every invocation of `main` with 2 or 3 parameters in which the plugin scan
finds nothing, `main` returns the non-zero code 1 having only printed the error: `process`
is never called, `writeToOutputFile` is never called, the output file is never created,
and no call is made on a plugin. -/
theorem invalid_plugin_path [OfScientific ρ] [EmptyCollection χ] (fuel : Nat)
    (w : World σ α ρ χ) (argv : List String)
    (hargc : argv.length = 3 ∨ argv.length = 4)
    (hscan : w.scanAndAddDragAndDroppedFiles (resolvePath w (argv.getD 1 "")) = []) :
    (main fuel w argv).status = Status.returned 1
    ∧ (main fuel w argv).events = [Event.cout "Error: unable to load plugin"]
    ∧ (∀ f, Event.enterProcess f ∉ (main fuel w argv).events)
    ∧ (∀ f, Event.enterWriteToOutputFile f ∉ (main fuel w argv).events)
    ∧ (∀ f, Event.createFile f ∉ (main fuel w argv).events)
    ∧ ∀ e ∈ (main fuel w argv).events, e.isPluginCall = false ∧ e.isWrite = false := by
  have hargc2 : ¬ ((argv.length : Int) < 3 ∨ (argv.length : Int) > 4) := by omega
  have hg : getPlugin w none (argv.getD 1 "")
      = { ret := 1, plugin := none, events := [Event.cout "Error: unable to load plugin"] } := by
    unfold getPlugin
    rw [hscan]
  have hm : main fuel w argv
      = { status := Status.returned 1, fileInfo := FileInfo.initial
          events := [Event.cout "Error: unable to load plugin"] } := by
    unfold main
    simp only [if_neg hargc2, hg]
    rfl
  have hev : (main fuel w argv).events = [Event.cout "Error: unable to load plugin"] := by
    rw [hm]
  refine ⟨by rw [hm], hev, ?_, ?_, ?_, ?_⟩
  · intro f; rw [hev]; simp
  · intro f; rw [hev]; simp
  · intro f; rw [hev]; simp
  · intro e he
    rw [hev, List.mem_singleton] at he
    subst he
    exact ⟨rfl, rfl⟩

/-- Witness of C6: nothing is found at `/missing.vst3`. -/
theorem invalid_plugin_path_witness :
    (main 4 studio ["PluginRunner", "/missing.vst3", "/in.wav"]).status = Status.returned 1
    ∧ (main 4 studio ["PluginRunner", "/missing.vst3", "/in.wav"]).events
      = [Event.cout "Error: unable to load plugin"] :=
  ⟨(invalid_plugin_path 4 studio ["PluginRunner", "/missing.vst3", "/in.wav"]
      (Or.inl rfl) (by decide)).1,
    (invalid_plugin_path 4 studio ["PluginRunner", "/missing.vst3", "/in.wav"]
      (Or.inl rfl) (by decide)).2.1⟩

/-- C7 (code at the failing input): the scan finds a description at `/broken.vst3` but
`createPluginInstance` yields no instance; `getPlugin` still returns 0 and leaves a null
plugin, and `main` goes on to `process`, which dereferences it. -/
theorem getPlugin_returns_zero_with_null_plugin :
    (studio.createPluginInstance { fileOrIdentifier := "/broken.vst3" }).isNone = true
    ∧ (getPlugin studio none "/broken.vst3").ret = 0
    ∧ (getPlugin studio none "/broken.vst3").plugin.isNone = true
    ∧ (main 4 studio ["PluginRunner", "/broken.vst3", "/in.wav"]).status
      = Status.nullDereference
    ∧ (main 4 studio ["PluginRunner", "/broken.vst3", "/in.wav"]).events
      = [Event.createFile "/out/in.wav-out.wav", Event.enterProcess "/in.wav"] := by
  refine ⟨by decide, by decide, by decide, by decide, by decide⟩

/-- C8: when the format manager creates no reader for the input file, `process` returns 1
having made no call on the plugin and having left the buffer, `fileInfo` and the plugin
as they were; `main` returns 1 with `fileInfo` untouched, and nothing it did is a call on
the plugin or part of `writeToOutputFile`. -/
theorem failed_decode [OfScientific ρ] [EmptyCollection χ] (fuel : Nat)
    (w : World σ α ρ χ) (argv : List String) (plugin : Option (AudioPluginInstance σ α ρ))
    (fileInfo : FileInfo ρ χ) (buffer : AudioBuffer α)
    (hr : w.createReaderFor (resolvePath w (argv.getD 2 "")) = none) :
    process fuel w.createReaderFor (resolvePath w (argv.getD 2 "")) plugin fileInfo buffer
      = { status := Status.returned 1, fileInfo := fileInfo, buffer := buffer, plugin := plugin
          events := [Event.cout "Error: unable to read input file"] }
    ∧ (main fuel w argv).status = Status.returned 1
    ∧ (main fuel w argv).fileInfo = FileInfo.initial
    ∧ ∀ e ∈ (main fuel w argv).events, e.isPluginCall = false ∧ e.isWrite = false := by
  refine ⟨process_no_reader fuel w.createReaderFor _ plugin fileInfo buffer hr, ?_⟩
  have hp := process_no_reader fuel w.createReaderFor (resolvePath w (argv.getD 2 ""))
    (getPlugin w none (argv.getD 1 "")).plugin FileInfo.initial AudioBuffer.empty hr
  rcases main_cases fuel w argv with ⟨hs, hi, hc⟩ | ⟨pre, hpre, hi, hrun⟩
  · refine ⟨hs, hi, ?_⟩
    intro e he
    have := hc e he
    exact ⟨event_not_plugin_of_pre e "" "" (Or.inl this),
      event_not_write_of_pre e "" "" (Or.inl this)⟩
  · rw [hp] at hi hrun
    rcases hrun with ⟨hs, _, _⟩ | ⟨_, hs, hev⟩
    · simp at hs
    · refine ⟨hs, hi, ?_⟩
      intro e he
      rw [hev] at he
      simp only [List.mem_append, List.mem_singleton] at he
      rcases he with he | he
      · exact ⟨event_not_plugin_of_pre e _ _ (hpre e he),
          event_not_write_of_pre e _ _ (hpre e he)⟩
      · subst he; exact ⟨rfl, rfl⟩

/-- Witness of C8: `/noise.wav` exists but cannot be decoded. -/
theorem failed_decode_witness :
    (main 4 studio ["PluginRunner", "/gain.vst3", "/noise.wav"]).events
      = [Event.createFile "/out/noise.wav-out.wav", Event.enterProcess "/noise.wav",
          Event.cout "Error: unable to read input file"]
    ∧ (main 4 studio ["PluginRunner", "/gain.vst3", "/noise.wav"]).status = Status.returned 1 :=
  ⟨by decide,
    (failed_decode 4 studio ["PluginRunner", "/gain.vst3", "/noise.wav"] none
      FileInfo.initial AudioBuffer.empty rfl).2.1⟩

end PipelineClaims

end PluginRunner

namespace PluginRunner

/-! ## Windows of a channel -/

section Windows
variable {α : Type}

theorem overwrite_length {ch o : List α} {n : Nat} (h : n + o.length ≤ ch.length) :
    (overwrite ch n o).length = ch.length := by
  simp only [overwrite, List.length_append, List.length_take, List.length_drop]
  omega

theorem window_length {ch : List α} {n len : Nat} (h : n + len ≤ ch.length) :
    (window ch n len).length = len := by
  simp only [window, List.length_take, List.length_drop]
  omega

theorem window_overwrite_same {ch o : List α} {n : Nat} (h : n ≤ ch.length) :
    window (overwrite ch n o) n o.length = o := by
  unfold window overwrite
  rw [List.append_assoc, List.drop_left' (by simp only [List.length_take]; omega),
    List.take_left' rfl]

theorem window_overwrite_before {ch o : List α} {n m l : Nat} (h1 : m + l ≤ n)
    (h : n ≤ ch.length) : window (overwrite ch n o) m l = window ch m l := by
  have hA : (ch.take n).length = n := by simp only [List.length_take]; omega
  have e1 : window (overwrite ch n o) m l = ((ch.take n).drop m).take l := by
    unfold window overwrite
    rw [List.append_assoc, List.drop_append_of_le_length (by omega),
      List.take_append_of_le_length (by simp only [List.length_drop]; omega)]
  have e2 : window ch m l = ((ch.take n).drop m).take l := by
    unfold window
    conv_lhs => rw [← List.take_append_drop n ch]
    rw [List.drop_append_of_le_length (by omega),
      List.take_append_of_le_length (by simp only [List.length_drop]; omega)]
  rw [e1, e2]

theorem drop_overwrite_after {ch o : List α} {n m : Nat} (h1 : n + o.length ≤ m)
    (h : n + o.length ≤ ch.length) : (overwrite ch n o).drop m = ch.drop m := by
  have hA : (ch.take n ++ o).length = n + o.length := by
    simp only [List.length_append, List.length_take]; omega
  obtain ⟨i, rfl⟩ : ∃ i, m = (ch.take n ++ o).length + i := ⟨m - (n + o.length), by omega⟩
  unfold overwrite
  rw [List.drop_append, List.drop_drop, hA]

theorem overwrite_window_self {ch : List α} {n len : Nat} (h : n + len ≤ ch.length) :
    overwrite ch n (window ch n len) = ch := by
  unfold overwrite
  rw [window_length h]
  unfold window
  have e : (ch.drop n).take len ++ ch.drop (n + len) = ch.drop n := by
    rw [← List.drop_drop]; exact List.take_append_drop len (ch.drop n)
  rw [List.append_assoc, e, List.take_append_drop]

theorem window_congr {a b : List α} {n : Nat} (l : Nat) (h : a.drop n = b.drop n) :
    window a n l = window b n l := by
  unfold window; rw [h]

theorem drop_congr {a b : List α} {n m : Nat} (hm : n ≤ m) (h : a.drop n = b.drop n) :
    a.drop m = b.drop m := by
  obtain ⟨i, rfl⟩ : ∃ i, m = n + i := ⟨m - n, by omega⟩
  rw [← List.drop_drop, ← List.drop_drop, h]

/-- Storing one block per channel: shapes are kept, the stored window reads back, the
windows before it and the frames after it are untouched. -/
theorem zipWith_overwrite (n len N : Nat) (hb : n + len ≤ N) :
    ∀ (chs outs : List (List α)), outs.length = chs.length →
      (∀ o ∈ outs, o.length = len) → (∀ ch ∈ chs, ch.length = N) →
      (List.zipWith (fun ch o => overwrite ch n o) chs outs).length = chs.length
      ∧ (∀ ch ∈ List.zipWith (fun ch o => overwrite ch n o) chs outs, ch.length = N)
      ∧ (List.zipWith (fun ch o => overwrite ch n o) chs outs).map
          (fun ch => window ch n len) = outs
      ∧ (∀ m l : Nat, m + l ≤ n →
          (List.zipWith (fun ch o => overwrite ch n o) chs outs).map (fun ch => window ch m l)
            = chs.map (fun ch => window ch m l))
      ∧ (∀ m : Nat, n + len ≤ m →
          (List.zipWith (fun ch o => overwrite ch n o) chs outs).map (fun ch => ch.drop m)
            = chs.map (fun ch => ch.drop m)) := by
  intro chs
  induction chs with
  | nil =>
    intro outs hl _ _
    have : outs = [] := List.length_eq_zero.mp hl
    subst this
    simp
  | cons ch rest ih =>
    intro outs hl ho hch
    cases outs with
    | nil => simp at hl
    | cons o outs2 =>
      have hol : o.length = len := ho o (List.mem_cons_self _ _)
      have hcl : ch.length = N := hch ch (List.mem_cons_self _ _)
      obtain ⟨i1, i2, i3, i4, i5⟩ := ih outs2 (by simpa using hl)
        (fun x hx => ho x (List.mem_cons_of_mem _ hx))
        (fun x hx => hch x (List.mem_cons_of_mem _ hx))
      simp only [List.zipWith_cons_cons, List.length_cons, List.map_cons, List.mem_cons]
      refine ⟨by rw [i1], ?_, ?_, ?_, ?_⟩
      · rintro x (rfl | hx)
        · rw [overwrite_length (by omega), hcl]
        · exact i2 x hx
      · rw [i3]
        have := @window_overwrite_same _ ch o n (by omega)
        rw [hol] at this
        rw [this]
      · intro m l hml
        rw [i4 m l hml, window_overwrite_before hml (by omega)]
      · intro m hm
        rw [i5 m hm, drop_overwrite_after (by omega) (by omega)]

theorem zipWith_overwrite_self (n len N : Nat) (hb : n + len ≤ N) :
    ∀ (chs : List (List α)), (∀ ch ∈ chs, ch.length = N) →
      List.zipWith (fun ch o => overwrite ch n o) chs
        (chs.map (fun ch => window ch n len)) = chs := by
  intro chs
  induction chs with
  | nil => intro _; rfl
  | cons ch rest ih =>
    intro hch
    simp only [List.map_cons, List.zipWith_cons_cons]
    rw [ih (fun x hx => hch x (List.mem_cons_of_mem _ hx)),
      overwrite_window_self (by rw [hch ch (List.mem_cons_self _ _)]; exact hb)]

theorem lengths_of_map_length_eq {l l2 : List (List α)} {len : Nat}
    (h : l.map List.length = l2.map List.length) (h2 : ∀ x ∈ l2, x.length = len) :
    l.length = l2.length ∧ ∀ o ∈ l, o.length = len := by
  constructor
  · have := congrArg List.length h
    simpa using this
  · intro o ho
    have hm : o.length ∈ l.map List.length := List.mem_map_of_mem _ ho
    rw [h] at hm
    obtain ⟨x, hx, e⟩ := List.mem_map.mp hm
    rw [← e]; exact h2 x hx

end Windows

end PluginRunner

namespace PluginRunner

/-! ## The buffer through the render loop (claim C4) -/

section InPlace
variable {σ α ρ χ : Type}

theorem subBuffer_full (b : AudioBuffer α) (n len : Nat) :
    b.subBuffer b.channels.length (n : Int) (len : Int)
      = { numSamples := len, channels := b.channels.map (fun ch => window ch n len) } := by
  simp [AudioBuffer.subBuffer]

theorem writeThrough_full (b blk : AudioBuffer α) (n : Nat) :
    b.writeThrough b.channels.length (n : Int) blk
      = { numSamples := b.numSamples
          channels := List.zipWith (fun ch o => overwrite ch n o) b.channels blk.channels } := by
  simp [AudioBuffer.writeThrough]

theorem map_window_of_map_drop {l l2 : List (List α)} {n : Nat} (len : Nat)
    (h : l.map (fun ch => ch.drop n) = l2.map (fun ch => ch.drop n)) :
    l.map (fun ch => window ch n len) = l2.map (fun ch => window ch n len) := by
  have e : ∀ x : List (List α), x.map (fun ch => window ch n len)
      = (x.map (fun ch => ch.drop n)).map (fun d => d.take len) := by
    intro x; simp [window, List.map_map]
  rw [e, e, h]

theorem map_drop_of_map_drop {l l2 : List (List α)} {n m : Nat} (hm : n ≤ m)
    (h : l.map (fun ch => ch.drop n) = l2.map (fun ch => ch.drop n)) :
    l.map (fun ch => ch.drop m) = l2.map (fun ch => ch.drop m) := by
  obtain ⟨i, rfl⟩ : ∃ i, m = n + i := ⟨m - n, by omega⟩
  have e : ∀ x : List (List α), x.map (fun ch => ch.drop (n + i))
      = (x.map (fun ch => ch.drop n)).map (fun d => d.drop i) := by
    intro x; simp [List.map_map]
  rw [e, e, h]

/-- One iteration of the loop body keeps the invariant. -/
theorem renderInv_step (p : AudioPluginInstance σ α ρ) (hp : ShapePreserving p)
    (input : AudioBuffer α) (C : Nat) (F : Int) (s0 : σ) (hin : input.channels.length = C)
    (j : Nat) (st : LoopState σ α ρ χ) (hj : 512 * (j : Int) < F)
    (inv : RenderInv p input C F s0 j st) :
    RenderInv p input C F s0 (j + 1)
      (processSubBlock p C (512 * (j : Int)) (min 512 (F - 512 * (j : Int))) st) := by
  obtain ⟨lenN, hlen⟩ : ∃ lenN : Nat, min 512 (F - 512 * (j : Int)) = (lenN : Int) :=
    ⟨(min 512 (F - 512 * (j : Int))).toNat, by omega⟩
  have hn : (512 * (j : Int)) = ((512 * j : Nat) : Int) := by push_cast; ring
  have hfit : 512 * j + lenN ≤ F.toNat := by omega
  have hsub : st.buffer.subBuffer C (512 * (j : Int)) (min 512 (F - 512 * (j : Int)))
      = blockInput input C F j := by
    unfold blockInput
    rw [hlen, hn]
    conv_lhs => rw [← inv.channels]
    conv_rhs => rw [← hin]
    rw [subBuffer_full, subBuffer_full, map_window_of_map_drop lenN inv.rest]
  have hout : (p.processBlock (st.buffer.subBuffer C (512 * (j : Int))
      (min 512 (F - 512 * (j : Int)))) st.plugin).2 = blockOutput p input C F s0 j := by
    rw [hsub, inv.plugin]; rfl
  have hst : (p.processBlock (st.buffer.subBuffer C (512 * (j : Int))
      (min 512 (F - 512 * (j : Int)))) st.plugin).1 = pluginStateBefore p input C F s0 (j + 1) := by
    rw [hsub, inv.plugin]; rfl
  have hshape := (hp (blockInput input C F j) (pluginStateBefore p input C F s0 j)).2
  have hsc : (blockInput input C F j).channels
      = st.buffer.channels.map (fun ch => window ch (512 * j) lenN) := by
    have := subBuffer_full st.buffer (512 * j) lenN
    rw [inv.channels, ← hn, ← hlen, hsub] at this
    rw [this]
  have hinw : ∀ x ∈ (blockInput input C F j).channels, x.length = lenN := by
    intro x hx
    rw [hsc] at hx
    obtain ⟨ch, hch, rfl⟩ := List.mem_map.mp hx
    exact window_length (by rw [inv.frames ch hch]; exact hfit)
  have hinl : (blockInput input C F j).channels.length = C := by
    rw [hsc, List.length_map, inv.channels]
  obtain ⟨hol, hoe⟩ := lengths_of_map_length_eq hshape hinw
  rw [hinl] at hol
  obtain ⟨z1, z2, z3, z4, z5⟩ := zipWith_overwrite (512 * j) lenN F.toNat hfit
    st.buffer.channels (blockOutput p input C F s0 j).channels
    (hol.trans inv.channels.symm) hoe inv.frames
  have hbuf : (processSubBlock p C (512 * (j : Int)) (min 512 (F - 512 * (j : Int)))
      st).buffer.channels
      = List.zipWith (fun ch o => overwrite ch (512 * j) o) st.buffer.channels
          (blockOutput p input C F s0 j).channels := by
    have := writeThrough_full st.buffer (blockOutput p input C F s0 j) (512 * j)
    rw [inv.channels] at this
    show (st.buffer.writeThrough C (512 * (j : Int)) _).channels = _
    rw [hout, hn, this]
  refine ⟨?_, ?_, ?_, ?_, hst, ?_⟩
  · exact inv.numSamples
  · rw [hbuf, z1, inv.channels]
  · rw [hbuf]; exact z2
  · rw [hbuf, z5 (512 * (j + 1)) (by omega)]
    exact map_drop_of_map_drop (by omega) inv.rest
  · intro k hk
    rw [hbuf]
    by_cases hkj : k < j
    · rw [z4 (512 * k) _ (by omega)]
      exact inv.done k hkj
    · have : k = j := by omega
      subst this
      rw [hlen, Int.toNat_ofNat]
      exact z3

/-- Within the safe range the loop ends with the invariant established for every block. -/
theorem renderLoop_inv (p : AudioPluginInstance σ α ρ) (hp : ShapePreserving p)
    (input : AudioBuffer α) (C : Nat) (F : Int) (s0 : σ) (hin : input.channels.length = C)
    (hF : F ≤ 2147483136) :
    ∀ (fuel j : Nat) (st : LoopState σ α ρ χ), RenderInv p input C F s0 j st →
      F - 512 * (j : Int) + 512 ≤ 512 * (fuel : Int) → 512 * (j : Int) < F + 512 →
      ∃ J : Nat, F ≤ 512 * (J : Int)
        ∧ RenderInv p input C F s0 J (renderLoop p C F fuel (512 * (j : Int)) st).2 := by
  intro fuel
  induction fuel with
  | zero => intro j st _ h1 h2; simp at h1; omega
  | succ fuel ih =>
    intro j st inv h1 h2
    by_cases hj : 512 * (j : Int) < F
    · rw [renderLoop_step p C F fuel (by omega) hj (by omega) (by omega)]
      have e : 512 * (j : Int) + 512 = 512 * ((j + 1 : Nat) : Int) := by push_cast; ring
      rw [e]
      exact ih (j + 1) _ (renderInv_step p hp input C F s0 hin j st hj inv)
        (by push_cast at h1 ⊢; omega) (by push_cast; omega)
    · rw [renderLoop_exit p C F fuel hj]
      exact ⟨j, by omega, inv⟩

/-- A pass-through plugin leaves the buffer as it was, within the safe range. -/
theorem renderLoop_pass_through (p : AudioPluginInstance σ α ρ)
    (hid : ∀ (b : AudioBuffer α) (s : σ), (p.processBlock b s).2 = b) (C : Nat) (F : Int)
    (hF : F ≤ 2147483136) (b0 : AudioBuffer α) (hC : b0.channels.length = C)
    (hN : ∀ ch ∈ b0.channels, ch.length = F.toNat) :
    ∀ (fuel : Nat) (n : Int) (st : LoopState σ α ρ χ), 0 ≤ n → st.buffer = b0 →
      (renderLoop p C F fuel n st).2.buffer = b0 := by
  intro fuel
  induction fuel with
  | zero => intro n st _ h; exact h
  | succ fuel ih =>
    intro n st hn hst
    by_cases hnF : n < F
    · rw [renderLoop_step p C F fuel hn hnF (by omega) (by omega)]
      apply ih (n + 512) _ (by omega)
      obtain ⟨nN, rfl⟩ : ∃ nN : Nat, n = (nN : Int) := ⟨n.toNat, by omega⟩
      obtain ⟨lenN, hlen⟩ : ∃ lenN : Nat, min 512 (F - (nN : Int)) = (lenN : Int) :=
        ⟨(min 512 (F - (nN : Int))).toNat, by omega⟩
      show st.buffer.writeThrough C _ (p.processBlock _ st.plugin).2 = b0
      rw [hid, hst, hlen, ← hC, subBuffer_full, writeThrough_full,
        zipWith_overwrite_self nN lenN F.toNat (by omega) b0.channels hN]
    · rw [renderLoop_exit p C F fuel hnF]
      exact hst

theorem readBuffer_shape {ρ2 χ2 : Type} (reader : AudioFormatReader α ρ2 χ2)
    (h0 : 0 ≤ reader.lengthInSamples) (hF : reader.lengthInSamples ≤ 2147483647) :
    reader.readBuffer.numSamples = reader.lengthInSamples.toNat
    ∧ reader.readBuffer.channels.length = reader.numChannels
    ∧ ∀ ch ∈ reader.readBuffer.channels, ch.length = reader.lengthInSamples.toNat := by
  unfold AudioFormatReader.readBuffer
  rw [wrapInt32_eq (by omega) hF]
  refine ⟨rfl, by simp, ?_⟩
  intro ch hch
  simp only [List.mem_map] at hch
  obtain ⟨c, _, rfl⟩ := hch
  simp

/-- The in-place postcondition below the overflow: for every buffer of `C` channels and
`F` frames with `0 ≤ F ≤ 2^31 - 512`, and every plugin whose `processBlock` returns a block of the shape
it was given, `process` returns 0 with a buffer of `C` channels and `F` frames in which
the frames of each block `k` hold what the plugin returned for the input frames of that
range in the state left by blocks `0 .. k - 1`; a pass-through plugin leaves every sample
unchanged. -/
theorem in_place_render (fuel : Nat)
    (createReaderFor : String → Option (AudioFormatReader α ρ χ)) (inputFile : String)
    (p : AudioPluginInstance σ α ρ) (fileInfo : FileInfo ρ χ) (buffer : AudioBuffer α)
    (reader : AudioFormatReader α ρ χ) (hr : createReaderFor inputFile = some reader)
    (h0 : 0 ≤ reader.lengthInSamples) (hF : reader.lengthInSamples ≤ 2147483136)
    (hfuel : reader.lengthInSamples + 512 ≤ 512 * (fuel : Int)) (hp : ShapePreserving p) :
    (process fuel createReaderFor inputFile (some p) fileInfo buffer).status = Status.returned 0
    ∧ (process fuel createReaderFor inputFile (some p) fileInfo buffer).buffer.numSamples
      = reader.lengthInSamples.toNat
    ∧ (process fuel createReaderFor inputFile (some p) fileInfo buffer).buffer.channels.length
      = reader.numChannels
    ∧ (∀ ch ∈ (process fuel createReaderFor inputFile (some p) fileInfo buffer).buffer.channels,
        ch.length = reader.lengthInSamples.toNat)
    ∧ (∀ k : Nat, 512 * (k : Int) < reader.lengthInSamples →
        (process fuel createReaderFor inputFile (some p) fileInfo buffer).buffer.subBuffer
            reader.numChannels (512 * (k : Int))
            (min 512 (reader.lengthInSamples - 512 * (k : Int)))
          = blockOutput p reader.readBuffer reader.numChannels reader.lengthInSamples
              (prepare p reader : LoopState σ α ρ χ).plugin k)
    ∧ ((∀ (b : AudioBuffer α) (s : σ), (p.processBlock b s).2 = b) →
        (process fuel createReaderFor inputFile (some p) fileInfo buffer).buffer
          = reader.readBuffer) := by
  obtain ⟨s1, s2, s3⟩ := readBuffer_shape reader h0 (by omega)
  have hx := renderLoop_safe_exit p reader.numChannels reader.lengthInSamples hF fuel 0
    (prepare p reader) (le_refl _) (by omega) (by omega)
  obtain ⟨e1, _, e3⟩ := process_of_exit fuel createReaderFor inputFile p fileInfo buffer hr hx
  have inv0 : RenderInv p reader.readBuffer reader.numChannels reader.lengthInSamples
      (prepare p reader : LoopState σ α ρ χ).plugin 0 (prepare p reader) :=
    { numSamples := rfl
      channels := s2
      frames := s3
      rest := rfl
      plugin := rfl
      done := fun k hk => absurd hk (Nat.not_lt_zero k) }
  obtain ⟨J, hJ, inv⟩ := renderLoop_inv p hp reader.readBuffer reader.numChannels
    reader.lengthInSamples (prepare p reader : LoopState σ α ρ χ).plugin s2 hF fuel 0
    (prepare p reader) inv0 (by push_cast; omega) (by push_cast; omega)
  have ez : (512 : Int) * ((0 : Nat) : Int) = 0 := by norm_num
  rw [ez] at inv
  rw [e3]
  refine ⟨e1, inv.numSamples.trans s1, inv.channels, inv.frames, ?_, ?_⟩
  · intro k hk
    obtain ⟨lenN, hlen⟩ : ∃ lenN : Nat,
        min 512 (reader.lengthInSamples - 512 * (k : Int)) = (lenN : Int) :=
      ⟨(min 512 (reader.lengthInSamples - 512 * (k : Int))).toNat, by omega⟩
    have hn : (512 * (k : Int)) = ((512 * k : Nat) : Int) := by push_cast; ring
    have hd := inv.done k (by omega)
    rw [hlen, Int.toNat_ofNat] at hd
    have hs := (hp (blockInput reader.readBuffer reader.numChannels reader.lengthInSamples k)
      (pluginStateBefore p reader.readBuffer reader.numChannels reader.lengthInSamples
        (prepare p reader : LoopState σ α ρ χ).plugin k)).1
    have hbn : (blockInput reader.readBuffer reader.numChannels reader.lengthInSamples
        k).numSamples = lenN := by
      unfold blockInput AudioBuffer.subBuffer
      rw [hlen, Int.toNat_ofNat]
    have hsub := subBuffer_full (renderLoop p reader.numChannels reader.lengthInSamples fuel 0
      (prepare p reader)).2.buffer (512 * k) lenN
    rw [inv.channels, ← hn, ← hlen] at hsub
    have hon : (blockOutput p reader.readBuffer reader.numChannels reader.lengthInSamples
        (prepare p reader : LoopState σ α ρ χ).plugin k).numSamples = lenN := hs.trans hbn
    rw [hsub, hd, ← hon]
  · intro hid
    exact renderLoop_pass_through p hid reader.numChannels reader.lengthInSamples hF
      reader.readBuffer s2 s3 fuel 0 (prepare p reader) (le_refl _) rfl

theorem countingPlugin_shapePreserving : ShapePreserving countingPlugin :=
  fun _ _ => ⟨rfl, rfl⟩

theorem staircasePlugin_shapePreserving : ShapePreserving staircasePlugin :=
  fun _ _ => ⟨rfl, by simp [staircasePlugin]⟩

set_option maxRecDepth 100000 in
/-- Example of `in_place_render`: 1025 stereo frames. Through the pass-through plugin the
buffer is unchanged; through `staircasePlugin` the frames of block 2 (frame 1024) hold
the input plus 3, the frames of block 0 the input plus 1. -/
theorem in_place_render_witness :
    (renderOf 4 (stereoReader 1025)).buffer.channels.length = 2
    ∧ (renderOf 4 (stereoReader 1025)).buffer.numSamples = 1025
    ∧ (renderOf 4 (stereoReader 1025)).buffer = (stereoReader 1025).readBuffer
    ∧ (process 4 (fun _ => some (stereoReader 1025)) "/in.wav" (some staircasePlugin)
          FileInfo.initial AudioBuffer.empty).buffer.subBuffer 2 (512 * ((2 : Nat) : Int))
          (min 512 ((stereoReader 1025).lengthInSamples - 512 * ((2 : Nat) : Int)))
        = blockOutput staircasePlugin (stereoReader 1025).readBuffer 2 1025 0 2
    ∧ blockOutput staircasePlugin (stereoReader 1025).readBuffer 2 1025 0 2
        = { numSamples := 1, channels := [[1027], [2027]] }
    ∧ (process 4 (fun _ => some (stereoReader 1025)) "/in.wav" (some staircasePlugin)
          FileInfo.initial AudioBuffer.empty).buffer.subBuffer 2 0 3
        = { numSamples := 3, channels := [[1, 2, 3], [1001, 1002, 1003]] } := by
  have h := in_place_render 4 (fun _ => some (stereoReader 1025)) "/in.wav" countingPlugin
    FileInfo.initial AudioBuffer.empty (stereoReader 1025) rfl (by decide) (by decide)
    (by decide) countingPlugin_shapePreserving
  have g := in_place_render 4 (fun _ => some (stereoReader 1025)) "/in.wav" staircasePlugin
    FileInfo.initial AudioBuffer.empty (stereoReader 1025) rfl (by decide) (by decide)
    (by decide) staircasePlugin_shapePreserving
  exact ⟨h.2.2.1, h.2.1, h.2.2.2.2.2 (fun _ _ => rfl), g.2.2.2.2.1 2 (by decide),
    by decide, by decide⟩

/-- Below the first overflowing increment a pass-through plugin leaves the buffer as it
was: with `fuel` units only the counters `n, ..., n + 512 * (fuel - 1)` are used. -/
theorem renderLoop_pass_through_before_overflow (p : AudioPluginInstance σ α ρ)
    (hid : ∀ (b : AudioBuffer α) (s : σ), (p.processBlock b s).2 = b) (C : Nat) (F : Int)
    (hF : F ≤ 2147483647) (b0 : AudioBuffer α) (hC : b0.channels.length = C)
    (hN : ∀ ch ∈ b0.channels, ch.length = F.toNat) :
    ∀ (fuel : Nat) (n : Int) (st : LoopState σ α ρ χ), 0 ≤ n →
      n + 512 * (fuel : Int) ≤ 2147483647 + 512 → st.buffer = b0 →
      (renderLoop p C F fuel n st).2.buffer = b0 := by
  have body : ∀ (n : Int) (st : LoopState σ α ρ χ), 0 ≤ n → n < F → st.buffer = b0 →
      (processSubBlock p C n (min 512 (F - n)) st).buffer = b0 := by
    intro n st hn hnF hst
    obtain ⟨nN, rfl⟩ : ∃ nN : Nat, n = (nN : Int) := ⟨n.toNat, by omega⟩
    obtain ⟨lenN, hlen⟩ : ∃ lenN : Nat, min 512 (F - (nN : Int)) = (lenN : Int) :=
      ⟨(min 512 (F - (nN : Int))).toNat, by omega⟩
    show st.buffer.writeThrough C _ (p.processBlock _ st.plugin).2 = b0
    rw [hid, hst, hlen, ← hC, subBuffer_full, writeThrough_full,
      zipWith_overwrite_self nN lenN F.toNat (by omega) b0.channels hN]
  intro fuel
  induction fuel with
  | zero => intro n st _ _ h; exact h
  | succ fuel ih =>
    intro n st hn hb hst
    by_cases hnF : n < F
    · rcases Nat.eq_zero_or_pos fuel with hz | hpos
      · subst hz
        rw [renderLoop, if_pos hnF]
        simp only [samplesToProcess_eq hn hnF hF, renderLoop]
        exact body n st hn hnF hst
      · rw [renderLoop_step p C F fuel hn hnF hF (by push_cast at hb; omega)]
        exact ih (n + 512) _ (by omega) (by push_cast at hb; omega) (body n st hn hnF hst)
    · rw [renderLoop_exit p C F fuel hnF]
      exact hst

/-- C4 (the code at the failing input: a mono buffer of `F = 2^31 - 1` frames, rendered
through a pass-through plugin): after 4194304 loop bodies every block has been processed
and the buffer holds every sample unchanged, but the loop has not been left: the next
step is `n += 512` at `n = 2^31 - 512`, whose result exceeds `INT_MAX`. The C++ behaviour
from there on is undefined; with the counter wrapping, as in this embedding, `process`
never returns, so there is no buffer after the loop. -/
theorem in_place_render_overflow_at_int_max :
    ShapePreserving countingPlugin
    ∧ (∀ (b : AudioBuffer Int) (s : Nat), (countingPlugin.processBlock b s).2 = b)
    ∧ longReader.numChannels = 1
    ∧ (renderOf 4194304 longReader).buffer = longReader.readBuffer
    ∧ (renderOf 4194304 longReader).status = Status.outOfFuel
    ∧ (2147483136 : Int) ∈ incrementOperands (renderOf 4194304 longReader).events
    ∧ INT_MAX < 2147483136 + blockSize
    ∧ ¬ ∃ fuel : Nat, (renderOf fuel longReader).status = Status.returned 0 := by
  have hx := renderLoop_never_exits countingPlugin longReader.numChannels 4194304 0
    (prepare countingPlugin longReader : LoopState Nat Int Rat (List Nat))
    (by decide) (by decide) (by decide)
  obtain ⟨_, s2, s3⟩ := readBuffer_shape longReader (by decide) (by decide)
  have hb := renderLoop_pass_through_before_overflow countingPlugin (fun _ _ => rfl)
    longReader.numChannels longReader.lengthInSamples (by decide) longReader.readBuffer s2 s3
    4194304 0 (prepare countingPlugin longReader : LoopState Nat Int Rat (List Nat))
    (le_refl _) (by norm_num) rfl
  have a1 := process_never_returns 4194304 (fun _ => some longReader) "/in.wav"
    countingPlugin FileInfo.initial AudioBuffer.empty longReader rfl rfl
  refine ⟨countingPlugin_shapePreserving, fun _ _ => rfl, rfl, ?_, a1,
    process_reaches_last_multiple (fun _ => some longReader) "/in.wav" countingPlugin
      FileInfo.initial AudioBuffer.empty rfl (by decide) (by decide),
    by decide, ?_⟩
  · unfold renderOf
    rw [process_buffer_of_no_exit 4194304 (fun _ => some longReader) "/in.wav"
      countingPlugin FileInfo.initial AudioBuffer.empty
      (show (fun _ => some longReader) "/in.wav" = some longReader from rfl) hx]
    exact hb
  · rintro ⟨fuel, h⟩
    have := process_never_returns fuel (fun _ => some longReader) "/in.wav" countingPlugin
      FileInfo.initial AudioBuffer.empty longReader rfl rfl
    unfold renderOf at h
    rw [this] at h
    exact absurd h (by decide)

end InPlace

end PluginRunner
